import Mathlib

/-!
Verification of the dual-buffer record serializer of this repository.

Part 1 embeds the byte-comparable numeric codec of
`include/flatbuffers/serialize.h` (namespace `keyencoder`).  Machine
integers are modelled as `Nat` bit patterns below `2 ^ 64` (for `double`,
the IEEE-754 bit pattern) and as `Int` in the two's-complement range for
`int64_t`.  The in-memory big-endian byte string produced by `htobe64` is
modelled as the explicit list of 8 bytes, most significant first, so that
`memcmp` order is lexicographic order on the list.

Part 2 embeds the `KVStoreBuilder` of
`include/flatbuffers/kvstore_builder.h`.  The underlying
`FlatBufferBuilder` is code of this repository that is not under `src/`;
it is modelled from the spec (see the doc comments starting
`Modelled from the spec:`).
-/

namespace KVSpec

/-! ## Byte-string primitives -/

/-- Big-endian byte string of the low `k` bytes of `v`, most significant
byte first (the in-memory image produced by `htobe64` when `k = 8`). -/
def beBytes : Nat → Nat → List Nat
  | 0, _ => []
  | k + 1, v => v / 256 ^ k % 256 :: beBytes k v

/-- Unsigned lexicographic byte comparison, i.e. `memcmp < 0` on two byte
strings of equal length (shorter-prefix case included for totality). -/
def lexLtB : List Nat → List Nat → Bool
  | [], [] => false
  | [], _ :: _ => true
  | _ :: _, [] => false
  | a :: as, b :: bs => decide (a < b) || (decide (a = b) && lexLtB as bs)

/-- Recompose a big-endian byte string into a natural number
(the value transformation performed by `be64toh` when reading 8 bytes). -/
def fromBE (bs : List Nat) : Nat := bs.foldl (fun acc b => acc * 256 + b) 0

/-! ## The `keyencoder` codec: `int64_t` instance

`Serialize<int64_t>` flips the sign bit (`*val ^= 1UL << 63`) and stores
the 8 bytes big-endian (`htobe64`); `Deserialize<int64_t>` reads the big
endian bytes back and flips the sign bit again.  An `int64_t` value `a`
(with `-2^63 ≤ a < 2^63`) has two's-complement bit pattern `toPat64 a`. -/

/-- Two's-complement 64-bit pattern of an integer. -/
def toPat64 (a : Int) : Nat := (a % (2 ^ 64 : Int)).toNat

/-- Signed interpretation of a 64-bit pattern. -/
def toSigned64 (v : Nat) : Int := if v < 2 ^ 63 then (v : Int) else (v : Int) - 2 ^ 64

/-- `keyencoder::Serialize<int64_t>`: xor the pattern with `1 << 63`, then
lay the result out as 8 big-endian bytes. -/
def serInt64 (a : Int) : List Nat := beBytes 8 (toPat64 a ^^^ 2 ^ 63)

/-- `keyencoder::Deserialize<int64_t>`: recompose the big-endian bytes,
xor with `1 << 63`, reinterpret as a signed 64-bit value. -/
def desInt64 (bs : List Nat) : Int := toSigned64 (fromBE bs ^^^ 2 ^ 63)

/-! ## The `keyencoder` codec: `double` instance

A `double` is modelled by its IEEE-754 bit pattern `p < 2^64`.  The C
comparisons `*val >= 0` and `*tmpd < 0` on doubles follow IEEE-754
semantics: comparisons involving NaN are false, and `-0.0` compares equal
to `0.0`.  They are expressed below directly on the bit pattern. -/

/-- The pattern is an IEEE-754 NaN: exponent field all ones, nonzero
mantissa. -/
def isNaN64 (p : Nat) : Bool :=
  decide (p / 2 ^ 52 % 2 ^ 11 = 2 ^ 11 - 1) && decide (p % 2 ^ 52 ≠ 0)

/-- Sign bit of a pattern `p < 2^64`. -/
def sign64 (p : Nat) : Bool := decide (2 ^ 63 ≤ p)

/-- Magnitude bits (everything but the sign). -/
def mag64 (p : Nat) : Nat := p % 2 ^ 63

/-- IEEE-754 semantics of the C expression `x < y` on two doubles given by
their bit patterns: false if either is NaN, otherwise compare by sign and
magnitude, with `-0.0 < 0.0` false. -/
def dblLtB (p q : Nat) : Bool :=
  !isNaN64 p && !isNaN64 q &&
    (match sign64 p, sign64 q with
     | false, false => decide (mag64 p < mag64 q)
     | true, true => decide (mag64 q < mag64 p)
     | true, false => !(decide (mag64 p = 0) && decide (mag64 q = 0))
     | false, true => false)

/-- IEEE-754 semantics of the C expression `*val >= 0` used by
`Serialize<double>`: true for non-negative values and for `-0.0`, false
for negative values and NaN. -/
def dblGe0B (p : Nat) : Bool := !isNaN64 p && (!sign64 p || decide (mag64 p = 0))

/-- IEEE-754 semantics of the C expression `*tmpd < 0` used by
`Deserialize<double>`: true exactly for negative non-NaN values other than
`-0.0`. -/
def dblLt0B (p : Nat) : Bool := !isNaN64 p && sign64 p && decide (mag64 p ≠ 0)

/-- `keyencoder::Serialize<double>`: xor the bit pattern with the sign bit
if `*val >= 0`, with all ones otherwise, then store big-endian. -/
def serDouble (p : Nat) : List Nat :=
  beBytes 8 (p ^^^ cond (dblGe0B p) (2 ^ 63) (2 ^ 64 - 1))

/-- `keyencoder::Deserialize<double>`: recompose the big-endian bytes,
inspect the sign of the intermediate pattern viewed as a double, and xor
with the mask that choice selects. -/
def desDouble (bs : List Nat) : Nat :=
  let e := fromBE bs
  e ^^^ cond (dblLt0B e) (2 ^ 63) (2 ^ 64 - 1)

/-! ## Buffer primitives for the builder model

Buffers are written back to front: the head of the list is the lowest
address, the end of the list is the (fixed) end of the buffer.  An
end-relative position `p` names the byte at distance `p` from the end of
the buffer, i.e. list index `length - p`; such positions are stable as
the buffer grows at the head.  A multi-byte word "at position `p`" starts
(lowest address, least significant byte) at position `p` and extends
towards the end. -/

/-- The 4 little-endian bytes of the low 32 bits of `v` (lowest address
first). -/
def le4 (v : Nat) : List Nat :=
  [v % 256, v / 256 % 256, v / 65536 % 256, v / 16777216 % 256]

/-- The 2 little-endian bytes of the low 16 bits of `v`. -/
def le2 (v : Nat) : List Nat := [v % 256, v / 256 % 256]

/-- Byte at end-relative position `p` (0 outside the buffer). -/
def readByte (buf : List Nat) (p : Nat) : Nat := buf.getD (buf.length - p) 0

/-- Little-endian 16-bit word at end-relative position `p`. -/
def read2 (buf : List Nat) (p : Nat) : Nat :=
  readByte buf p + 256 * readByte buf (p - 1)

/-- Little-endian 32-bit word at end-relative position `p`. -/
def read4 (buf : List Nat) (p : Nat) : Nat :=
  readByte buf p + 256 * readByte buf (p - 1) + 65536 * readByte buf (p - 2) +
    16777216 * readByte buf (p - 3)

/-- `n` bytes in increasing address order starting at end-relative
position `p`. -/
def readBytes (buf : List Nat) (p n : Nat) : List Nat :=
  (List.range n).map (fun i => readByte buf (p - i))

/-- Overwrite the 32-bit little-endian word at end-relative position `p`. -/
def write4 (buf : List Nat) (p v : Nat) : List Nat :=
  let i := buf.length - p
  (((buf.set i (v % 256)).set (i + 1) (v / 256 % 256)).set
      (i + 2) (v / 65536 % 256)).set (i + 3) (v / 16777216 % 256)

/-! ## The single-buffer table builder

Modelled from the spec: the external `FlatBufferBuilder` ("Single-Buffer
Table Builder") is code of this repository that is not under `src/`; only
its caller `KVStoreBuilder` is.  The model below follows the spec's §3
data model and §6 interface: a growable byte region written back to
front, end-relative field-offset tracking, and `endTable` emitting a
vtable (`[vtable size in bytes][table size][entry per field slot]`, 16-bit
little-endian entries measured from the table start, 0 = absent) followed
by the table's first word, a signed offset from the table start to its
vtable.  Scalars in this development are 32-bit.  Opportunistic vtable
deduplication is left out (the spec explicitly does not re-specify it).
`align = false` models the `setAlign(false)` call the `KVStoreBuilder`
constructor makes on its key builder. -/
structure Builder where
  buf : List Nat
  tracked : List (Nat × Nat)
  align : Bool
  deriving DecidableEq, Repr

namespace Builder

/-- `GetSize()`: bytes currently used, measured from the end. -/
def size (b : Builder) : Nat := b.buf.length

/-- Modelled from the spec: pad with zero bytes to a multiple of `n`
before a push, when alignment is enabled. -/
def padTo (b : Builder) (n : Nat) : Builder :=
  if b.align then
    {b with buf := List.replicate ((n - b.buf.length % n) % n) 0 ++ b.buf}
  else b

/-- Modelled from the spec: `pushRawBytes` — raw bytes, no alignment. -/
def pushBytes (bs : List Nat) (b : Builder) : Builder :=
  {b with buf := bs ++ b.buf}

/-- Modelled from the spec: push one 32-bit scalar (`PushElement`). -/
def pushWord (v : Nat) (b : Builder) : Builder :=
  let b1 := b.padTo 4
  {b1 with buf := le4 v ++ b1.buf}

/-- Modelled from the spec: `trackFieldOffset(slot, endRelativeOffset)`.
`f` is the field's vtable byte offset (slot `i` is at `(i + 2) * 2`),
matching the `voffset_t field` arguments generated code passes. -/
def trackField (f off : Nat) (b : Builder) : Builder :=
  {b with tracked := (f, off) :: b.tracked}

/-- Modelled from the spec: `addElement(slot, value, default)` — omitted
when equal to the default, otherwise pushed and its end-relative offset
tracked. -/
def addElement (f v d : Nat) (b : Builder) : Builder :=
  if v = d then b
  else
    let b1 := b.pushWord v
    b1.trackField f b1.size

/-- Modelled from the spec: `startTable()` resets field tracking. -/
def startTable (b : Builder) : Builder := {b with tracked := []}

/-- Latest tracked end-relative offset for vtable byte offset `f`
(0 when the field was never tracked). -/
def trackedAt (b : Builder) (f : Nat) : Nat :=
  ((b.tracked.find? (fun pr => pr.1 == f)).map Prod.snd).getD 0

/-- `ReferTo(off)`: convert an end-relative offset into an offset relative
to the word about to be written at the current head. -/
def referTo (b : Builder) (off : Nat) : Nat := b.size - off + 4

/-- Modelled from the spec: `endTable(startMarker, fieldCount)`.  Pushes
the table's vtable-pointer word (placeholder), then the vtable, then
resolves the placeholder to the signed distance from table start to
vtable; returns the new builder and the end-relative position of the
table start.  A tracked field whose vtable byte offset lies outside the
`fieldCount` entries is dropped (in the source its stray entry is
overwritten by the vtable-pointer word). -/
def endTable (b : Builder) (start numFields : Nat) : Builder × Nat :=
  let b1 := b.pushWord 0
  let t := b1.size
  let entries := (List.range numFields).map (fun i =>
    let o := b1.trackedAt (4 + 2 * i)
    if o = 0 then 0 else t - o)
  let b2 := b1.padTo 2
  let vt := le2 ((2 + numFields) * 2) ++ le2 (t - start) ++
    entries.foldr (fun e acc => le2 e ++ acc) []
  let b3 : Builder := {b2 with buf := vt ++ b2.buf}
  let soff := b3.size - t
  ({b3 with buf := write4 b3.buf t soff}, t)

end Builder

/-! ## Reading a table (standard table-format reader)

Modelled from the spec: the reader of the single-buffer table format,
also the semantics of `Table::GetOptionalFieldOffset` which
`KVStoreBuilder::EndTable` calls on the value builder's raw bytes. -/

/-- End-relative position of the vtable of the table starting at
end-relative position `tpos`: the table's first word is the offset back
to its vtable. -/
def vtAt (buf : List Nat) (tpos : Nat) : Nat := tpos + read4 buf tpos

/-- Vtable entry for vtable byte offset `f`: the field value's offset
from the table start, 0 if absent (`Table::GetOptionalFieldOffset`). -/
def fieldOff (buf : List Nat) (tpos f : Nat) : Nat :=
  let vp := vtAt buf tpos
  let vs := read2 buf vp
  if f < vs then read2 buf (vp - f) else 0

/-- Decode a 32-bit scalar field (default 0 when absent). -/
def decodeScalar (buf : List Nat) (tpos f : Nat) : Nat :=
  let o := fieldOff buf tpos f
  if o = 0 then 0 else read4 buf (tpos - o)

/-- Decode a key-resident string field laid out by
`KVStoreBuilder::AddKeyElement<std::string>` after relocation: the field
slot holds the length word, the raw offset word sits at the next higher
address and is self-relative after `EndTable`'s relocation pass. -/
def decodeString (buf : List Nat) (tpos f : Nat) : List Nat :=
  let o := fieldOff buf tpos f
  if o = 0 then []
  else
    let mp := tpos - o
    let len := read4 buf mp
    let u := read4 buf (mp - 4)
    readBytes buf (mp - 4 - u) len

/-! ## The `KVStoreBuilder` (translated from
`include/flatbuffers/kvstore_builder.h`) -/

/-- State of a `KVStoreBuilder`: key builder, value builder, the two
start markers, and the pending relocation list `relocs_`.  The raw
`key_pointer_`/`value_pointer_` snapshot members are addresses and are
not part of the byte-level model. -/
structure KVB where
  kb : Builder
  vb : Builder
  keyStart : Nat
  valueStart : Nat
  relocs : List Nat
  deriving DecidableEq, Repr

/-- A freshly constructed `KVStoreBuilder`: the constructor calls
`setAlign(false)` on the key builder only. -/
def initKVB : KVB := ⟨⟨[], [], false⟩, ⟨[], [], true⟩, 0, 0, []⟩

namespace KVB

/-- `KVStoreBuilder::Clear`: clears the two builders — and nothing else;
in particular `relocs_` is left as it is. -/
def clear (st : KVB) : KVB :=
  {st with kb := ⟨[], [], st.kb.align⟩, vb := ⟨[], [], st.vb.align⟩}

/-- `KVStoreBuilder::StartTable`. -/
def startTable (st : KVB) : KVB × Nat :=
  let kb := st.kb.startTable
  let vb := st.vb.startTable
  (⟨kb, vb, kb.size, vb.size, st.relocs⟩, kb.size)

/-- `KVStoreBuilder::AddKeyElement<T>` for scalars. -/
def addKeyElement (f v d : Nat) (st : KVB) : KVB :=
  {st with kb := st.kb.addElement f v d}

/-- `KVStoreBuilder::AddValueElement<T>`. -/
def addValueElement (f v d : Nat) (st : KVB) : KVB :=
  {st with vb := st.vb.addElement f v d}

/-- `KVStoreBuilder::AddKeyElement<std::string>` specialization: push the
payload (including its NUL terminator) into the key buffer, push the
payload's key-buffer end-relative offset as a raw word into the value
buffer, record that word's value-buffer end-relative position in
`relocs_`, then add the length as field `f` of the value table. -/
def addKeyString (f : Nat) (s : List Nat) (st : KVB) : KVB :=
  let kb := st.kb.pushBytes (s ++ [0])
  let off := kb.size
  let vb1 := st.vb.pushWord off
  let relocs := st.relocs ++ [vb1.size]
  let vb2 := vb1.addElement f s.length 0
  {st with kb := kb, vb := vb2, relocs := relocs}

/-- `KVStoreBuilder::AddOffset`: forwards to the value builder.
Modelled from the spec: `addOffset(slot, offset)` writes the offset word
as the value of field `slot` of the value table. -/
def addOffset (f off : Nat) (st : KVB) : KVB :=
  let vb1 := st.vb.pushWord off
  {st with vb := vb1.trackField f vb1.size}

/-- `KVStoreBuilder::AddKeyOffset`: the source overwrites the argument
with 0 (`off = 0;`) before forwarding to `AddOffset`. -/
def addKeyOffset (f off : Nat) (st : KVB) : KVB := addOffset f 0 st

/-- `KVStoreBuilder::EndTable`, translated statement by statement.  The
field counts 3/3/2 are hardcoded in the source (marked "TODO: generate
it"). -/
def endTable (numFields : Nat) (st : KVB) : KVB × Nat :=
  let numValueFields := 3
  let numKeyFields := 3
  let numFixedFields := 2
  let (vb, _) := st.vb.endTable st.valueStart numValueFields
  let vtsz := read2 vb.buf vb.size + 4
  let pushed := vb.size - vtsz
  let tv := pushed + 4
  let kb := st.kb.pushBytes (vb.buf.drop vtsz)
  let kb := (List.range numValueFields).foldl (fun kb i =>
      let vf := numFixedFields * 2 + 2 * i
      let off := fieldOff vb.buf tv vf
      kb.trackField ((numKeyFields + numFixedFields) * 2 + 2 * i)
        (kb.size + 4 - off)) kb
  let kb := st.relocs.foldl (fun kb r =>
      let p := kb.size - (pushed - r)
      let adj := pushed - r + 4
      let old := read4 kb.buf p
      {kb with buf := write4 kb.buf p (kb.referTo old - adj)}) kb
  let (kb2, ret) := kb.endTable st.keyStart numFields
  ({st with kb := kb2, vb := vb}, ret)

end KVB

/-! ## Record-building scenarios

The generated-code usage pattern from the header comment of
`kvstore_builder.h`: key fields, then the remaining fields, added in
schema order while a record is open.  `buildRecord` matches the layout
`EndTable` hardcodes (`num_key_fields = 3`, `num_value_fields = 3`,
`num_fixed_fields = 2`): three key scalar fields at their vtable byte
offsets 4, 6, 8, one key string whose metadata lands at value-side
offset 4, and two value scalars at value-side offsets 6, 8. -/
def buildRecord (k1 k2 k3 : Nat) (s : List Nat) (w1 w2 : Nat) (st : KVB) : KVB :=
  ((((((KVB.startTable st).1.addKeyElement 4 k1 0).addKeyElement 6 k2
    0).addKeyElement 8 k3 0).addKeyString 4 s).addValueElement 6 w1
    0).addValueElement 8 w2 0

/-- A record with one extra (third) value scalar, i.e. `M = 3` value
scalars beside the key string's metadata — one more than the hardcoded
`num_value_fields = 3` accommodates. -/
def buildRecord3V : KVB :=
  (buildRecord 11 22 33 [65, 66] 55 66 initKVB).addValueElement 10 7 0

/-- The key buffer `EndTable` leaves behind for a `buildRecord`-shaped
record whose payload-and-key-scalar region is `A` (of length
`L + 13`): the unified 6-field vtable, the table's vtable-pointer word,
the spliced-in value-table region (value scalars, string length, patched
string offset), and `A`. -/
def keyOut (w1 w2 L : Nat) (A : List Nat) : List Nat :=
  le2 16 ++ (le2 (L + 33) ++ (le2 (L + 29) ++ (le2 (L + 25) ++ (le2 (L + 21) ++
    (le2 12 ++ (le2 8 ++ (le2 4 ++ (le4 16 ++ (le4 w2 ++ (le4 w1 ++ (le4 L ++
    (le4 4 ++ A))))))))))))

/-- The value buffer after the value builder's `EndTable` for the
`buildRecord` layout: 5-entry vtable, vtable-pointer word 10, then the
two value scalars, the string length, and the raw string offset word. -/
def vbOut (w1 w2 L x : Nat) : List Nat :=
  (10 : Nat) :: 0 :: 20 :: 0 :: 12 :: 0 :: 8 :: 0 :: 4 :: 0 :: 10 :: 0 :: 0 :: 0 ::
    (le4 w2 ++ (le4 w1 ++ (le4 L ++ le4 x)))

/-! ## xor characterization lemmas -/

theorem xor_two_pow_of_lt {x n : Nat} (h : x < 2 ^ n) : x ^^^ 2 ^ n = x + 2 ^ n := by
  apply Nat.eq_of_testBit_eq
  intro i
  rcases Nat.lt_trichotomy i n with hi | hi | hi
  · rw [Nat.testBit_xor, Nat.testBit_two_pow_of_ne (Nat.ne_of_gt hi),
      Nat.add_comm, Nat.testBit_two_pow_add_gt hi]
    simp
  · subst hi
    rw [Nat.testBit_xor, Nat.testBit_two_pow_self, Nat.add_comm,
      Nat.testBit_two_pow_add_eq, Nat.testBit_lt_two_pow h]
    simp
  · have hx : x + 2 ^ n < 2 ^ i := by
      have h1 : 2 ^ n * 2 ≤ 2 ^ i := by
        have : 2 ^ (n + 1) ≤ 2 ^ i := Nat.pow_le_pow_right (by norm_num) hi
        simpa [Nat.pow_succ] using this
      omega
    rw [Nat.testBit_xor, Nat.testBit_two_pow_of_ne (Nat.ne_of_lt hi),
      Nat.testBit_lt_two_pow hx, Nat.testBit_lt_two_pow (lt_of_lt_of_le h (by omega))]
    simp

theorem xor_two_pow_of_ge {x n : Nat} (h1 : 2 ^ n ≤ x) (h2 : x < 2 ^ (n + 1)) :
    x ^^^ 2 ^ n = x - 2 ^ n := by
  have hq : x - 2 ^ n < 2 ^ n := by
    have : 2 ^ (n + 1) = 2 ^ n * 2 := by rw [Nat.pow_succ]
    omega
  have hx : x = (x - 2 ^ n) + 2 ^ n := by omega
  calc x ^^^ 2 ^ n = ((x - 2 ^ n) ^^^ 2 ^ n) ^^^ 2 ^ n := by
        rw [xor_two_pow_of_lt hq, ← hx]
    _ = x - 2 ^ n := by rw [Nat.xor_assoc, Nat.xor_self, Nat.xor_zero]

theorem xor_all_ones {x n : Nat} (h : x < 2 ^ n) : x ^^^ (2 ^ n - 1) = 2 ^ n - 1 - x := by
  apply Nat.eq_of_testBit_eq
  intro i
  have he : 2 ^ n - 1 - x = 2 ^ n - (x + 1) := by omega
  rw [Nat.testBit_xor, Nat.testBit_two_pow_sub_one, he, Nat.testBit_two_pow_sub_succ h]
  by_cases hi : i < n
  · simp [hi]
  · have : x < 2 ^ i := lt_of_lt_of_le h (Nat.pow_le_pow_right (by norm_num) (by omega))
    simp [hi, Nat.testBit_lt_two_pow this]

/-! ## Big-endian order lemmas -/

/-- Splitting a comparison into quotient and remainder comparisons. -/
theorem lt_iff_div_mod (q : Nat) (hq : 0 < q) (a b : Nat) :
    a < b ↔ (a / q < b / q ∨ (a / q = b / q ∧ a % q < b % q)) := by
  have e1 := Nat.div_add_mod a q
  have e2 := Nat.div_add_mod b q
  have m1 : a % q < q := Nat.mod_lt _ hq
  have m2 : b % q < q := Nat.mod_lt _ hq
  constructor
  · intro h
    rcases Nat.lt_trichotomy (a / q) (b / q) with h1 | h1 | h1
    · exact Or.inl h1
    · rw [h1] at e1
      exact Or.inr ⟨h1, by omega⟩
    · have h3 : q * (b / q) + q ≤ q * (a / q) := by
        have := Nat.mul_le_mul_left q (Nat.succ_le_of_lt h1)
        simpa [Nat.mul_succ] using this
      omega
  · rintro (h1 | ⟨h1, h2⟩)
    · have h3 : q * (a / q) + q ≤ q * (b / q) := by
        have := Nat.mul_le_mul_left q (Nat.succ_le_of_lt h1)
        simpa [Nat.mul_succ] using this
      omega
    · rw [h1] at e1
      omega

theorem beBytes_mod (k : Nat) : ∀ a : Nat, beBytes k (a % 256 ^ k) = beBytes k a := by
  induction k with
  | zero => intro a; rfl
  | succ k ih =>
    intro a
    have hd : a % 256 ^ (k + 1) / 256 ^ k % 256 = a / 256 ^ k % 256 := by
      have h1 : a % 256 ^ (k + 1) = a % (256 ^ k * 256) := by ring_nf
      rw [h1, Nat.mod_mul_right_div_self]
      exact Nat.mod_mod_of_dvd _ dvd_rfl
    have ht : beBytes k (a % 256 ^ (k + 1)) = beBytes k a := by
      have h2 : a % 256 ^ (k + 1) % 256 ^ k = a % 256 ^ k := by
        apply Nat.mod_mod_of_dvd
        exact pow_dvd_pow 256 (by omega)
      calc beBytes k (a % 256 ^ (k + 1)) = beBytes k (a % 256 ^ (k + 1) % 256 ^ k) :=
            (ih _).symm
        _ = beBytes k (a % 256 ^ k) := by rw [h2]
        _ = beBytes k a := ih a
    simp only [beBytes, hd, ht]

theorem beLex (k : Nat) : ∀ a b : Nat, a < 256 ^ k → b < 256 ^ k →
    (lexLtB (beBytes k a) (beBytes k b) = true ↔ a < b) := by
  induction k with
  | zero =>
    intro a b ha hb
    simp only [Nat.pow_zero, Nat.lt_one_iff] at ha hb
    subst ha; subst hb
    simp [beBytes, lexLtB]
  | succ k ih =>
    intro a b ha hb
    have hq : 0 < 256 ^ k := Nat.pos_pow_of_pos k (by norm_num)
    have hpow : 256 ^ (k + 1) = 256 ^ k * 256 := by ring
    have hda : a / 256 ^ k < 256 := Nat.div_lt_of_lt_mul (by omega)
    have hdb : b / 256 ^ k < 256 := Nat.div_lt_of_lt_mul (by omega)
    have hma : a / 256 ^ k % 256 = a / 256 ^ k := Nat.mod_eq_of_lt hda
    have hmb : b / 256 ^ k % 256 = b / 256 ^ k := Nat.mod_eq_of_lt hdb
    have hta : beBytes k a = beBytes k (a % 256 ^ k) := (beBytes_mod k a).symm
    have htb : beBytes k b = beBytes k (b % 256 ^ k) := (beBytes_mod k b).symm
    simp only [beBytes, hma, hmb, hta, htb, lexLtB, Bool.or_eq_true,
      Bool.and_eq_true, decide_eq_true_eq,
      ih _ _ (Nat.mod_lt _ hq) (Nat.mod_lt _ hq)]
    exact (lt_iff_div_mod (256 ^ k) hq a b).symm

theorem fromBE_beBytes_aux (k : Nat) : ∀ acc v : Nat,
    List.foldl (fun acc b => acc * 256 + b) acc (beBytes k v) =
      acc * 256 ^ k + v % 256 ^ k := by
  induction k with
  | zero => intro acc v; simp [beBytes, Nat.mod_one]
  | succ k ih =>
    intro acc v
    have hmul : v % (256 ^ k * 256) = v % 256 ^ k + 256 ^ k * (v / 256 ^ k % 256) :=
      Nat.mod_mul
    have hpow : (256 : Nat) ^ (k + 1) = 256 ^ k * 256 := by ring
    simp only [beBytes, List.foldl_cons, ih]
    rw [hpow, hmul]
    ring

theorem fromBE_beBytes {v : Nat} (h : v < 2 ^ 64) : fromBE (beBytes 8 v) = v := by
  have h9 : v % 256 ^ 8 = v := by
    apply Nat.mod_eq_of_lt
    calc v < 2 ^ 64 := h
      _ = 256 ^ 8 := by norm_num
  rw [fromBE, fromBE_beBytes_aux 8 0 v, h9, Nat.zero_mul, Nat.zero_add]

theorem toPat64_lt (a : Int) : toPat64 a < 2 ^ 64 := by
  have h1 : (0 : Int) < 2 ^ 64 := by norm_num
  have h2 := Int.emod_lt_of_pos a h1
  have h3 := Int.emod_nonneg a (by norm_num : (2 ^ 64 : Int) ≠ 0)
  simp only [toPat64]
  omega

/-- The sign-bit flip of the two's-complement pattern is the biased
("excess `2^63`") representation. -/
theorem serInt64_val {a : Int} (h1 : -2 ^ 63 ≤ a) (h2 : a < 2 ^ 63) :
    toPat64 a ^^^ 2 ^ 63 = (a + 2 ^ 63).toNat := by
  rcases le_or_lt 0 a with hpos | hneg
  · have hp : toPat64 a = a.toNat := by
      simp only [toPat64]
      rw [Int.emod_eq_of_lt hpos (by omega)]
    have hlt : a.toNat < 2 ^ 63 := by omega
    rw [hp, xor_two_pow_of_lt hlt]
    omega
  · have hp : toPat64 a = (a + 2 ^ 64).toNat := by
      simp only [toPat64]
      have : a % (2 ^ 64 : Int) = a + 2 ^ 64 := by omega
      rw [this]
    have hge : 2 ^ 63 ≤ (a + 2 ^ 64).toNat := by omega
    have hlt : (a + 2 ^ 64).toNat < 2 ^ (63 + 1) := by omega
    rw [hp, xor_two_pow_of_ge hge hlt]
    omega

/-- The encoded pattern of a non-NaN, non-`-0.0` double, as a number:
below the sign bit a value maps to addition of the sign bit, above it to
the complement. -/
theorem serDouble_val {p : Nat} (hp : p < 2 ^ 64) (hn : isNaN64 p = false)
    (hz : p ≠ 2 ^ 63) :
    p ^^^ cond (dblGe0B p) (2 ^ 63) (2 ^ 64 - 1) =
      if p < 2 ^ 63 then p + 2 ^ 63 else 2 ^ 64 - 1 - p := by
  rcases Nat.lt_or_ge p (2 ^ 63) with hlt | hge
  · have hsign : sign64 p = false := by
      simp only [sign64, decide_eq_false_iff_not]
      omega
    have hge0 : dblGe0B p = true := by simp [dblGe0B, hn, hsign]
    rw [hge0, cond_true, if_pos hlt]
    exact xor_two_pow_of_lt hlt
  · have hsign : sign64 p = true := by
      simp only [sign64, decide_eq_true_eq]
      omega
    have hmag : mag64 p ≠ 0 := by
      simp only [mag64, ne_eq]
      omega
    have hge0 : dblGe0B p = false := by simp [dblGe0B, hn, hsign, hmag]
    rw [hge0, cond_false, if_neg (by omega)]
    exact xor_all_ones hp

/-! ## Reading and writing lemma kit

End-relative positions compose with prepending: a read at a position
inside the old part of a buffer is unchanged by data pushed in front. -/

theorem length_le4 (v : Nat) : (le4 v).length = 4 := rfl

theorem length_le2 (v : Nat) : (le2 v).length = 2 := rfl

theorem readByte_append_low (xs ys : List Nat) (p : Nat) (h : p ≤ ys.length) :
    readByte (xs ++ ys) p = readByte ys p := by
  unfold readByte
  rw [List.length_append]
  have he : xs.length + ys.length - p = xs.length + (ys.length - p) := by omega
  rw [he]
  simp only [List.getD_eq_getElem?_getD]
  rw [List.getElem?_append_right (by omega)]
  congr 2
  omega

theorem readByte_append_high (xs ys : List Nat) (p : Nat) (h1 : ys.length < p)
    (h2 : p ≤ xs.length + ys.length) :
    readByte (xs ++ ys) p = readByte xs (p - ys.length) := by
  unfold readByte
  rw [List.length_append]
  have he : xs.length + ys.length - p = xs.length - (p - ys.length) := by omega
  rw [he]
  simp only [List.getD_eq_getElem?_getD]
  rw [List.getElem?_append_left (by omega)]

theorem read2_append_low (xs ys : List Nat) (p : Nat) (h : p ≤ ys.length) :
    read2 (xs ++ ys) p = read2 ys p := by
  unfold read2
  rw [readByte_append_low _ _ _ h, readByte_append_low _ _ _ (by omega)]

theorem read2_append_high (xs ys : List Nat) (p : Nat) (h1 : ys.length + 1 < p)
    (h2 : p ≤ xs.length + ys.length) :
    read2 (xs ++ ys) p = read2 xs (p - ys.length) := by
  unfold read2
  rw [readByte_append_high _ _ _ (by omega) (by omega),
    readByte_append_high _ _ _ (by omega) (by omega)]
  have e1 : p - 1 - ys.length = p - ys.length - 1 := by omega
  rw [e1]

theorem read4_append_low (xs ys : List Nat) (p : Nat) (h : p ≤ ys.length) :
    read4 (xs ++ ys) p = read4 ys p := by
  unfold read4
  rw [readByte_append_low _ _ _ h, readByte_append_low _ _ _ (by omega),
    readByte_append_low _ _ _ (by omega), readByte_append_low _ _ _ (by omega)]

theorem read4_append_high (xs ys : List Nat) (p : Nat) (h1 : ys.length + 3 < p)
    (h2 : p ≤ xs.length + ys.length) :
    read4 (xs ++ ys) p = read4 xs (p - ys.length) := by
  unfold read4
  rw [readByte_append_high _ _ _ (by omega) (by omega),
    readByte_append_high _ _ _ (by omega) (by omega),
    readByte_append_high _ _ _ (by omega) (by omega),
    readByte_append_high _ _ _ (by omega) (by omega)]
  have e1 : p - 1 - ys.length = p - ys.length - 1 := by omega
  have e2 : p - 2 - ys.length = p - ys.length - 2 := by omega
  have e3 : p - 3 - ys.length = p - ys.length - 3 := by omega
  rw [e1, e2, e3]

theorem read4_le4 (v : Nat) : read4 (le4 v) 4 = v % 4294967296 := by
  simp only [read4, readByte, le4, List.length_cons, List.length_nil]
  norm_num
  omega

theorem read2_le2 (v : Nat) : read2 (le2 v) 2 = v % 65536 := by
  simp only [read2, readByte, le2, List.length_cons, List.length_nil]
  norm_num
  omega

/-- Reading the 32-bit word of a `le4` segment in place. -/
theorem read4_seg (xs ys : List Nat) (v : Nat) :
    read4 (xs ++ le4 v ++ ys) (ys.length + 4) = v % 4294967296 := by
  rw [List.append_assoc]
  rw [read4_append_low xs (le4 v ++ ys) _ (by simp [le4])]
  rw [read4_append_high (le4 v) ys _ (by omega) (by simp [le4]; omega)]
  have he : ys.length + 4 - ys.length = 4 := by omega
  rw [he, read4_le4]

/-- Reading the 16-bit word of a `le2` segment in place. -/
theorem read2_seg (xs ys : List Nat) (v : Nat) :
    read2 (xs ++ le2 v ++ ys) (ys.length + 2) = v % 65536 := by
  rw [List.append_assoc]
  rw [read2_append_low xs (le2 v ++ ys) _ (by simp [le2])]
  rw [read2_append_high (le2 v) ys _ (by omega) (by simp [le2]; omega)]
  have he : ys.length + 2 - ys.length = 2 := by omega
  rw [he, read2_le2]

/-- Overwriting a 4-byte word in the middle of a buffer. -/
theorem write4_mid (xs w ys : List Nat) (v : Nat) (hw : w.length = 4) :
    write4 (xs ++ w ++ ys) (ys.length + 4) v = xs ++ le4 v ++ ys := by
  match w, hw with
  | [a, b, c, d], _ =>
    simp only [write4]
    rw [List.append_assoc]
    have hl : (xs ++ ([a, b, c, d] ++ ys)).length - (ys.length + 4) = xs.length := by
      simp
    rw [hl]
    rw [List.set_append_right _ _ (by omega), List.set_append_right _ _ (by omega),
      List.set_append_right _ _ (by omega), List.set_append_right _ _ (by omega)]
    simp [le4]

/-- `write4_mid` for a right-associated buffer with an explicit position
equation. -/
theorem write4_mid' (xs w ys : List Nat) (v p : Nat) (hw : w.length = 4)
    (hp : p = ys.length + 4) :
    write4 (xs ++ (w ++ ys)) p v = xs ++ (le4 v ++ ys) := by
  subst hp
  rw [← List.append_assoc, write4_mid xs w ys v hw, List.append_assoc]

/-- Reading the 32-bit word at the head segment of a buffer. -/
theorem read4_head (v p : Nat) (ys : List Nat) (hp : p = ys.length + 4) :
    read4 (le4 v ++ ys) p = v % 4294967296 := by
  subst hp
  have h := read4_seg [] ys v
  simpa using h

/-- Reading the 16-bit word at the head segment of a buffer. -/
theorem read2_head (v p : Nat) (ys : List Nat) (hp : p = ys.length + 2) :
    read2 (le2 v ++ ys) p = v % 65536 := by
  subst hp
  have h := read2_seg [] ys v
  simpa using h

theorem readBytes_append_low (xs ys : List Nat) (p n : Nat) (h : p ≤ ys.length) :
    readBytes (xs ++ ys) p n = readBytes ys p n := by
  unfold readBytes
  apply List.map_congr_left
  intro i _
  exact readByte_append_low xs ys _ (by omega)

/-- Reading back the payload written by `AddKeyElement<std::string>`. -/
theorem readBytes_payload (xs ys s : List Nat) :
    readBytes (xs ++ ((s ++ [0]) ++ ys)) (ys.length + s.length + 1) s.length = s := by
  unfold readBytes
  refine List.ext_getElem (by simp) ?_
  intro i h1 h2
  simp only [List.getElem_map, List.getElem_range]
  have hi : i < s.length := by simpa using h1
  rw [readByte_append_low xs ((s ++ [0]) ++ ys) _ (by simp; omega)]
  rw [readByte_append_high (s ++ [0]) ys _ (by omega) (by simp; omega)]
  have he : ys.length + s.length + 1 - i - ys.length = s.length + 1 - i := by omega
  rw [he]
  unfold readByte
  have hidx : (s ++ [0]).length - (s.length + 1 - i) = i := by simp; omega
  rw [hidx]
  simp only [List.getD_eq_getElem?_getD]
  rw [List.getElem?_append_left (by simpa using hi), List.getElem?_eq_getElem hi]
  rfl

theorem read4_le4' (v p : Nat) (hp : p = 4) : read4 (le4 v) p = v % 4294967296 := by
  subst hp
  exact read4_le4 v

/-- `write4` of a word located by an explicit split of the buffer. -/
theorem write4_any (B xs w ys : List Nat) (v p : Nat) (hB : B = xs ++ (w ++ ys))
    (hw : w.length = 4) (hp : p = ys.length + 4) :
    write4 B p v = xs ++ (le4 v ++ ys) := by
  subst hB
  exact write4_mid' xs w ys v p hw hp

theorem readBytes_append_high (xs ys : List Nat) (p n : Nat)
    (h1 : ys.length + n ≤ p) (h2 : p ≤ xs.length + ys.length) :
    readBytes (xs ++ ys) p n = readBytes xs (p - ys.length) n := by
  unfold readBytes
  apply List.map_congr_left
  intro i hi
  have hin : i < n := List.mem_range.mp hi
  rw [readByte_append_high _ _ _ (by omega) (by omega)]
  congr 1
  omega

/-- `readBytes_payload` when the payload segment is at the head and the
position and count are given by equations. -/
theorem readBytes_payload_head (ys s : List Nat) (p n : Nat)
    (hp : p = ys.length + s.length + 1) (hn : n = s.length) :
    readBytes ((s ++ [0]) ++ ys) p n = s := by
  subst hp
  subst hn
  have h := readBytes_payload [] ys s
  simpa using h

/-- Reading back a NUL-terminated payload standing alone. -/
theorem readBytes_nul (s : List Nat) (p n : Nat) (hp : p = s.length + 1)
    (hn : n = s.length) : readBytes (s ++ [0]) p n = s := by
  subst hp
  subst hn
  have h := readBytes_payload [] [] s
  simpa using h

/-- A push on a 4-byte-aligned builder needs no padding. -/
theorem padTo4_of_aligned (b : Builder) (hb : b.buf.length % 4 = 0) :
    b.padTo 4 = b := by
  unfold Builder.padTo
  rw [hb]
  split <;> simp

theorem pushWord_aligned (b : Builder) (v : Nat) (hb : b.buf.length % 4 = 0) :
    b.pushWord v = ⟨le4 v ++ b.buf, b.tracked, b.align⟩ := by
  unfold Builder.pushWord
  rw [padTo4_of_aligned b hb]

/-- Effect of a present (non-default) scalar field add on an aligned
builder. -/
theorem addElement_eq (f v : Nat) (b : Builder) (hv : v ≠ 0)
    (hb : b.buf.length % 4 = 0) :
    b.addElement f v 0 =
      ⟨le4 v ++ b.buf, (f, b.buf.length + 4) :: b.tracked, b.align⟩ := by
  unfold Builder.addElement
  rw [if_neg hv, pushWord_aligned _ _ hb]
  unfold Builder.trackField Builder.size
  simp only [Builder.mk.injEq, List.length_append, length_le4, List.cons.injEq,
    Prod.mk.injEq, and_true, true_and, eq_self_iff_true]
  omega

/-- Full effect of `AddKeyElement<std::string>` for a nonempty string on
an aligned value buffer. -/
theorem addKeyString_eq (f : Nat) (s : List Nat) (st : KVB)
    (hs : s.length ≠ 0) (hal : st.vb.buf.length % 4 = 0) :
    st.addKeyString f s =
      ⟨⟨(s ++ [0]) ++ st.kb.buf, st.kb.tracked, st.kb.align⟩,
       ⟨le4 s.length ++ le4 (st.kb.buf.length + s.length + 1) ++ st.vb.buf,
        (f, st.vb.buf.length + 8) :: st.vb.tracked, st.vb.align⟩,
       st.keyStart, st.valueStart, st.relocs ++ [st.vb.buf.length + 4]⟩ := by
  have hoff : ((s ++ [0]) ++ st.kb.buf).length = st.kb.buf.length + s.length + 1 := by
    simp
    omega
  simp only [KVB.addKeyString, Builder.pushBytes, Builder.size]
  rw [pushWord_aligned _ _ hal]
  rw [addElement_eq f s.length _ hs (by simp [length_le4]; omega)]
  rw [hoff]
  simp only [KVB.mk.injEq, Builder.mk.injEq, List.length_append, length_le4,
    List.cons.injEq, Prod.mk.injEq, List.append_assoc, and_true, true_and,
    eq_self_iff_true, List.append_cancel_left_eq]
  omega

/-- The value builder's `EndTable` for the `buildRecord` layout: three
tracked fields at offsets 4, 6, 8, table size 20, vtable
`[10, 20, 12, 8, 4]` (16-bit words), vtable-pointer word 10. -/
theorem valueEnd_eq (w1 w2 L x : Nat) :
    Builder.endTable
      ⟨le4 w2 ++ le4 w1 ++ le4 L ++ le4 x, [(8, 16), (6, 12), (4, 8)], true⟩ 0 3 =
      (⟨vbOut w1 w2 L x, [(8, 16), (6, 12), (4, 8)], true⟩, 20) := by
  simp only [Builder.endTable, vbOut]
  rw [pushWord_aligned _ _ (by simp [length_le4])]
  simp [Builder.size, Builder.trackedAt, Builder.padTo, length_le4, List.find?,
    le2, le4, write4, List.replicate, List.range_succ, List.range_zero,
    List.map_append, List.map_cons, List.map_nil, List.foldr_append]

theorem write4_after8 (x1 x2 x3 x4 x5 x6 x7 x8 w K : List Nat) (v v2 p : Nat)
    (hw : w.length = 4) (hp : p = K.length + 4) (hv : v = v2) :
    write4 (x1 ++ (x2 ++ (x3 ++ (x4 ++ (x5 ++ (x6 ++ (x7 ++ (x8 ++ (w ++ K))))))))) p v =
      x1 ++ (x2 ++ (x3 ++ (x4 ++ (x5 ++ (x6 ++ (x7 ++ (x8 ++ (le4 v2 ++ K)))))))) := by
  subst hv
  subst hp
  have e : x1 ++ (x2 ++ (x3 ++ (x4 ++ (x5 ++ (x6 ++ (x7 ++ (x8 ++ (w ++ K)))))))) =
      (x1 ++ x2 ++ x3 ++ x4 ++ x5 ++ x6 ++ x7 ++ x8) ++ (w ++ K) := by
    simp only [List.append_assoc]
  rw [e, write4_mid' _ _ _ _ _ hw rfl]
  simp only [List.append_assoc]

/-- Reading the fourth 32-bit word of the spliced value-table region. -/
theorem read4_in4 (x1 x2 x3 A : List Nat) (v v2 p : Nat)
    (hp : p = A.length + 4) (hv : v % 4294967296 = v2) :
    read4 ((x1 ++ (x2 ++ (x3 ++ le4 v))) ++ A) p = v2 := by
  subst hv
  subst hp
  have e : (x1 ++ (x2 ++ (x3 ++ le4 v))) ++ A = (x1 ++ x2 ++ x3) ++ le4 v ++ A := by
    simp only [List.append_assoc]
  rw [e, read4_seg]

/-- Overwriting the fourth 32-bit word of the spliced value-table
region. -/
theorem write4_in4 (x1 x2 x3 w A : List Nat) (v v2 p : Nat) (hw : w.length = 4)
    (hp : p = A.length + 4) (hv : v = v2) :
    write4 ((x1 ++ (x2 ++ (x3 ++ w))) ++ A) p v =
      x1 ++ (x2 ++ (x3 ++ (le4 v2 ++ A))) := by
  subst hv
  subst hp
  have e : (x1 ++ (x2 ++ (x3 ++ w))) ++ A = (x1 ++ x2 ++ x3) ++ (w ++ A) := by
    simp only [List.append_assoc]
  rw [e, write4_mid' _ _ _ _ _ hw rfl]
  simp only [List.append_assoc]

/-- The key builder's `EndTable` with the unified 6-field numbering:
vtable `[16, size+4, e(4), e(6), e(8), e(10), e(12), e(14)]`, the
vtable-pointer word 16, the table at end-relative `K.length + 4`. -/
theorem keyEnd_eq (K : List Nat) (e1 e2 e3 : Nat)
    (he1 : e1 ≠ 0) (he2 : e2 ≠ 0) (he3 : e3 ≠ 0) :
    Builder.endTable ⟨K, [(14, e3), (12, e2), (10, e1), (8, 12), (6, 8), (4, 4)], false⟩ 0 6 =
      (⟨(le2 16 ++ le2 (K.length + 4) ++ le2 K.length ++ le2 (K.length - 4) ++
          le2 (K.length - 8) ++ le2 (K.length + 4 - e1) ++ le2 (K.length + 4 - e2) ++
          le2 (K.length + 4 - e3)) ++ (le4 16 ++ K),
        [(14, e3), (12, e2), (10, e1), (8, 12), (6, 8), (4, 4)], false⟩, K.length + 4) := by
  simp [Builder.endTable, Builder.pushWord, Builder.padTo, Builder.size,
    Builder.trackedAt, List.find?, List.range_succ, List.range_zero,
    List.map_append, List.foldr_append, he1, he2, he3, length_le4]
  refine ⟨?_, by omega⟩
  rw [write4_after8 _ _ _ _ _ _ _ _ _ _ _ 16 _ (length_le4 0) (by omega)
    (by simp only [length_le2, length_le4, List.length_append]; omega)]
  repeat' first
  | rfl
  | omega
  | (congr 1)

/-- Reading the raw string-offset word of the spliced region in place. -/
theorem read4_nest3 (x1 x2 x3 A : List Nat) (v v2 p : Nat)
    (hp : p = A.length + 4) (hv : v % 4294967296 = v2) :
    read4 (x1 ++ (x2 ++ (x3 ++ (le4 v ++ A)))) p = v2 := by
  subst hv
  subst hp
  rw [read4_append_low _ _ _ (by simp [length_le4]; omega),
    read4_append_low _ _ _ (by simp [length_le4]; omega),
    read4_append_low _ _ _ (by simp [length_le4]; omega),
    read4_head _ _ _ rfl]

/-- The relocation patch: overwriting the raw string-offset word. -/
theorem write4_nest3 (x1 x2 x3 w A : List Nat) (v v2 p : Nat) (hw : w.length = 4)
    (hp : p = A.length + 4) (hv : v = v2) :
    write4 (x1 ++ (x2 ++ (x3 ++ (w ++ A)))) p v =
      x1 ++ (x2 ++ (x3 ++ (le4 v2 ++ A))) := by
  subst hv
  subst hp
  have e : x1 ++ (x2 ++ (x3 ++ (w ++ A))) = (x1 ++ x2 ++ x3) ++ (w ++ A) := by
    simp only [List.append_assoc]
  rw [e, write4_mid' _ _ _ _ _ hw rfl]
  simp only [List.append_assoc]

set_option maxHeartbeats 2000000 in
/-- `KVStoreBuilder::EndTable` on a freshly built `buildRecord`-shaped
state: the value table is finalized, its field region spliced onto the
key buffer, the three value-side fields re-registered under the unified
numbering, the string offset word patched to be self-relative, and the
unified 6-field key table finalized.  The relocation list is NOT
cleared. -/
theorem kvEnd_eq (w1 w2 L : Nat) (A : List Nat)
    (hA : A.length = L + 13) (hL : L + 33 < 65536) :
    KVB.endTable 6
      ⟨⟨A, [(8, 12), (6, 8), (4, 4)], false⟩,
       ⟨le4 w2 ++ le4 w1 ++ le4 L ++ le4 (L + 13), [(8, 16), (6, 12), (4, 8)], true⟩,
       0, 0, [4]⟩ =
      (⟨⟨keyOut w1 w2 L A,
         [(14, L + 29), (12, L + 25), (10, L + 21), (8, 12), (6, 8), (4, 4)], false⟩,
        ⟨vbOut w1 w2 L (L + 13), [(8, 16), (6, 12), (4, 8)], true⟩,
        0, 0, [4]⟩, L + 33) := by
  have hsz : Builder.size ⟨vbOut w1 w2 L (L + 13), [(8, 16), (6, 12), (4, 8)], true⟩ = 30 := by
    simp [Builder.size, vbOut, length_le4]
  have hr2 : read2 (vbOut w1 w2 L (L + 13)) 30 = 10 := by
    simp [read2, readByte, vbOut, length_le4, le4]
  have hdrop : (vbOut w1 w2 L (L + 13)).drop 14 =
      le4 w2 ++ (le4 w1 ++ (le4 L ++ le4 (L + 13))) := by
    simp [vbOut]
  have hfo4 : fieldOff (vbOut w1 w2 L (L + 13)) 20 4 = 12 := by
    simp [fieldOff, vtAt, read4, read2, readByte, vbOut, length_le4, le4]
  have hfo6 : fieldOff (vbOut w1 w2 L (L + 13)) 20 6 = 8 := by
    simp [fieldOff, vtAt, read4, read2, readByte, vbOut, length_le4, le4]
  have hfo8 : fieldOff (vbOut w1 w2 L (L + 13)) 20 8 = 4 := by
    simp [fieldOff, vtAt, read4, read2, readByte, vbOut, length_le4, le4]
  simp only [KVB.endTable]
  rw [valueEnd_eq]
  dsimp only
  rw [hsz, hr2]
  norm_num
  rw [hdrop]
  rw [show List.range 3 = [0, 1, 2] from rfl]
  simp only [List.foldl_cons, List.foldl_nil]
  norm_num [Builder.trackField, Builder.pushBytes, Builder.size, List.length_append,
    length_le4, hfo4, hfo6, hfo8]
  rw [read4_nest3 _ _ _ _ _ (L + 13) _ (by omega) (by omega)]
  simp only [Builder.referTo, Builder.size, List.length_append, length_le4]
  rw [write4_nest3 _ _ _ _ _ _ 4 _ (length_le4 (L + 13)) (by omega) (by omega)]
  have ha1 : 4 + (4 + (4 + (4 + (L + 13)))) = L + 29 := by omega
  have ha2 : L + 29 + 4 - 8 = L + 25 := by omega
  have ha3 : L + 29 + 4 - 12 = L + 21 := by omega
  rw [hA, ha1, ha2, ha3]
  rw [keyEnd_eq _ _ _ _ (by omega) (by omega) (by omega)]
  dsimp only
  simp only [List.length_append, length_le4]
  rw [hA, ha1]
  have hb5 : L + 29 + 4 - (L + 21) = 12 := by omega
  have hb6 : L + 29 + 4 - (L + 25) = 8 := by omega
  have hb7 : L + 29 + 4 - (L + 29) = 4 := by omega
  have hb3 : L + 29 - 4 = L + 25 := by omega
  have hb4 : L + 29 - 8 = L + 21 := by omega
  have hb2 : L + 29 + 4 = L + 33 := by omega
  rw [hb5, hb6, hb7, hb3, hb4, hb2]
  simp only [keyOut, List.append_assoc]
  exact ⟨trivial, trivial⟩

theorem read4_head' (v v2 p : Nat) (ys : List Nat) (hp : p = ys.length + 4)
    (hv : v % 4294967296 = v2) : read4 (le4 v ++ ys) p = v2 := by
  subst hv
  exact read4_head v p ys hp

theorem read2_head' (v v2 p : Nat) (ys : List Nat) (hp : p = ys.length + 2)
    (hv : v % 65536 = v2) : read2 (le2 v ++ ys) p = v2 := by
  subst hv
  exact read2_head v p ys hp

theorem read4_le4_eq (v v2 p : Nat) (hp : p = 4) (hv : v % 4294967296 = v2) :
    read4 (le4 v) p = v2 := by
  subst hv
  exact read4_le4' v p hp

/-- The state after building the example record layout on a fresh
builder, with every field present. -/
theorem buildRecord_eq (k1 k2 k3 w1 w2 : Nat) (s : List Nat)
    (h1 : k1 ≠ 0) (h2 : k2 ≠ 0) (h3 : k3 ≠ 0) (h4 : w1 ≠ 0) (h5 : w2 ≠ 0)
    (hs : s.length ≠ 0) :
    buildRecord k1 k2 k3 s w1 w2 initKVB =
      ⟨⟨(s ++ [0]) ++ le4 k3 ++ le4 k2 ++ le4 k1, [(8, 12), (6, 8), (4, 4)], false⟩,
       ⟨le4 w2 ++ le4 w1 ++ le4 s.length ++ le4 (s.length + 13),
        [(8, 16), (6, 12), (4, 8)], true⟩, 0, 0, [4]⟩ := by
  simp only [buildRecord, KVB.addKeyElement, KVB.addValueElement, KVB.startTable,
    initKVB, Builder.startTable]
  simp [addElement_eq, addKeyString_eq, h1, h2, h3, h4, h5, hs, length_le4]
  refine ⟨?_, rfl, rfl⟩
  congr 1
  omega

/-! ## Decoding the unified key table: vtable entry lemmas -/

theorem keyOut_fo4 (w1 w2 L : Nat) (A : List Nat) (hA : A.length = L + 13)
    (hL : L + 33 < 65536) : fieldOff (keyOut w1 w2 L A) (L + 33) 4 = L + 29 := by
  simp only [fieldOff, vtAt, keyOut]
  rw [
    read4_append_low _ _ _ (by simp only [List.length_append, length_le2, length_le4]; omega),
    read4_append_low _ _ _ (by simp only [List.length_append, length_le2, length_le4]; omega),
    read4_append_low _ _ _ (by simp only [List.length_append, length_le2, length_le4]; omega),
    read4_append_low _ _ _ (by simp only [List.length_append, length_le2, length_le4]; omega),
    read4_append_low _ _ _ (by simp only [List.length_append, length_le2, length_le4]; omega),
    read4_append_low _ _ _ (by simp only [List.length_append, length_le2, length_le4]; omega),
    read4_append_low _ _ _ (by simp only [List.length_append, length_le2, length_le4]; omega),
    read4_append_low _ _ _ (by simp only [List.length_append, length_le2, length_le4]; omega),
    read4_head' 16 16 _ _ (by simp only [List.length_append, length_le2, length_le4]; omega)
      (by norm_num)]
  rw [show L + 33 + 16 = L + 49 from by omega]
  rw [read2_head' 16 16 _ _ (by simp only [List.length_append, length_le2, length_le4]; omega)
    (by norm_num)]
  rw [if_pos (by norm_num : (4 : Nat) < 16)]
  rw [show L + 49 - 4 = L + 45 from by omega]
  rw [
    read2_append_low _ _ _ (by simp only [List.length_append, length_le2, length_le4]; omega),
    read2_append_low _ _ _ (by simp only [List.length_append, length_le2, length_le4]; omega),
    read2_head' (L + 29) (L + 29) _ _
      (by simp only [List.length_append, length_le2, length_le4]; omega) (by omega)]

theorem keyOut_fo6 (w1 w2 L : Nat) (A : List Nat) (hA : A.length = L + 13)
    (hL : L + 33 < 65536) : fieldOff (keyOut w1 w2 L A) (L + 33) 6 = L + 25 := by
  simp only [fieldOff, vtAt, keyOut]
  rw [
    read4_append_low _ _ _ (by simp only [List.length_append, length_le2, length_le4]; omega),
    read4_append_low _ _ _ (by simp only [List.length_append, length_le2, length_le4]; omega),
    read4_append_low _ _ _ (by simp only [List.length_append, length_le2, length_le4]; omega),
    read4_append_low _ _ _ (by simp only [List.length_append, length_le2, length_le4]; omega),
    read4_append_low _ _ _ (by simp only [List.length_append, length_le2, length_le4]; omega),
    read4_append_low _ _ _ (by simp only [List.length_append, length_le2, length_le4]; omega),
    read4_append_low _ _ _ (by simp only [List.length_append, length_le2, length_le4]; omega),
    read4_append_low _ _ _ (by simp only [List.length_append, length_le2, length_le4]; omega),
    read4_head' 16 16 _ _ (by simp only [List.length_append, length_le2, length_le4]; omega)
      (by norm_num)]
  rw [show L + 33 + 16 = L + 49 from by omega]
  rw [read2_head' 16 16 _ _ (by simp only [List.length_append, length_le2, length_le4]; omega)
    (by norm_num)]
  rw [if_pos (by norm_num : (6 : Nat) < 16)]
  rw [show L + 49 - 6 = L + 43 from by omega]
  rw [
    read2_append_low _ _ _ (by simp only [List.length_append, length_le2, length_le4]; omega),
    read2_append_low _ _ _ (by simp only [List.length_append, length_le2, length_le4]; omega),
    read2_append_low _ _ _ (by simp only [List.length_append, length_le2, length_le4]; omega),
    read2_head' (L + 25) (L + 25) _ _
      (by simp only [List.length_append, length_le2, length_le4]; omega) (by omega)]

theorem keyOut_fo8 (w1 w2 L : Nat) (A : List Nat) (hA : A.length = L + 13)
    (hL : L + 33 < 65536) : fieldOff (keyOut w1 w2 L A) (L + 33) 8 = L + 21 := by
  simp only [fieldOff, vtAt, keyOut]
  rw [
    read4_append_low _ _ _ (by simp only [List.length_append, length_le2, length_le4]; omega),
    read4_append_low _ _ _ (by simp only [List.length_append, length_le2, length_le4]; omega),
    read4_append_low _ _ _ (by simp only [List.length_append, length_le2, length_le4]; omega),
    read4_append_low _ _ _ (by simp only [List.length_append, length_le2, length_le4]; omega),
    read4_append_low _ _ _ (by simp only [List.length_append, length_le2, length_le4]; omega),
    read4_append_low _ _ _ (by simp only [List.length_append, length_le2, length_le4]; omega),
    read4_append_low _ _ _ (by simp only [List.length_append, length_le2, length_le4]; omega),
    read4_append_low _ _ _ (by simp only [List.length_append, length_le2, length_le4]; omega),
    read4_head' 16 16 _ _ (by simp only [List.length_append, length_le2, length_le4]; omega)
      (by norm_num)]
  rw [show L + 33 + 16 = L + 49 from by omega]
  rw [read2_head' 16 16 _ _ (by simp only [List.length_append, length_le2, length_le4]; omega)
    (by norm_num)]
  rw [if_pos (by norm_num : (8 : Nat) < 16)]
  rw [show L + 49 - 8 = L + 41 from by omega]
  rw [
    read2_append_low _ _ _ (by simp only [List.length_append, length_le2, length_le4]; omega),
    read2_append_low _ _ _ (by simp only [List.length_append, length_le2, length_le4]; omega),
    read2_append_low _ _ _ (by simp only [List.length_append, length_le2, length_le4]; omega),
    read2_append_low _ _ _ (by simp only [List.length_append, length_le2, length_le4]; omega),
    read2_head' (L + 21) (L + 21) _ _
      (by simp only [List.length_append, length_le2, length_le4]; omega) (by omega)]

theorem keyOut_fo10 (w1 w2 L : Nat) (A : List Nat) (hA : A.length = L + 13)
    (hL : L + 33 < 65536) : fieldOff (keyOut w1 w2 L A) (L + 33) 10 = 12 := by
  simp only [fieldOff, vtAt, keyOut]
  rw [
    read4_append_low _ _ _ (by simp only [List.length_append, length_le2, length_le4]; omega),
    read4_append_low _ _ _ (by simp only [List.length_append, length_le2, length_le4]; omega),
    read4_append_low _ _ _ (by simp only [List.length_append, length_le2, length_le4]; omega),
    read4_append_low _ _ _ (by simp only [List.length_append, length_le2, length_le4]; omega),
    read4_append_low _ _ _ (by simp only [List.length_append, length_le2, length_le4]; omega),
    read4_append_low _ _ _ (by simp only [List.length_append, length_le2, length_le4]; omega),
    read4_append_low _ _ _ (by simp only [List.length_append, length_le2, length_le4]; omega),
    read4_append_low _ _ _ (by simp only [List.length_append, length_le2, length_le4]; omega),
    read4_head' 16 16 _ _ (by simp only [List.length_append, length_le2, length_le4]; omega)
      (by norm_num)]
  rw [show L + 33 + 16 = L + 49 from by omega]
  rw [read2_head' 16 16 _ _ (by simp only [List.length_append, length_le2, length_le4]; omega)
    (by norm_num)]
  rw [if_pos (by norm_num : (10 : Nat) < 16)]
  rw [show L + 49 - 10 = L + 39 from by omega]
  rw [
    read2_append_low _ _ _ (by simp only [List.length_append, length_le2, length_le4]; omega),
    read2_append_low _ _ _ (by simp only [List.length_append, length_le2, length_le4]; omega),
    read2_append_low _ _ _ (by simp only [List.length_append, length_le2, length_le4]; omega),
    read2_append_low _ _ _ (by simp only [List.length_append, length_le2, length_le4]; omega),
    read2_append_low _ _ _ (by simp only [List.length_append, length_le2, length_le4]; omega),
    read2_head' (12) (12) _ _
      (by simp only [List.length_append, length_le2, length_le4]; omega) (by norm_num)]

theorem keyOut_fo12 (w1 w2 L : Nat) (A : List Nat) (hA : A.length = L + 13)
    (hL : L + 33 < 65536) : fieldOff (keyOut w1 w2 L A) (L + 33) 12 = 8 := by
  simp only [fieldOff, vtAt, keyOut]
  rw [
    read4_append_low _ _ _ (by simp only [List.length_append, length_le2, length_le4]; omega),
    read4_append_low _ _ _ (by simp only [List.length_append, length_le2, length_le4]; omega),
    read4_append_low _ _ _ (by simp only [List.length_append, length_le2, length_le4]; omega),
    read4_append_low _ _ _ (by simp only [List.length_append, length_le2, length_le4]; omega),
    read4_append_low _ _ _ (by simp only [List.length_append, length_le2, length_le4]; omega),
    read4_append_low _ _ _ (by simp only [List.length_append, length_le2, length_le4]; omega),
    read4_append_low _ _ _ (by simp only [List.length_append, length_le2, length_le4]; omega),
    read4_append_low _ _ _ (by simp only [List.length_append, length_le2, length_le4]; omega),
    read4_head' 16 16 _ _ (by simp only [List.length_append, length_le2, length_le4]; omega)
      (by norm_num)]
  rw [show L + 33 + 16 = L + 49 from by omega]
  rw [read2_head' 16 16 _ _ (by simp only [List.length_append, length_le2, length_le4]; omega)
    (by norm_num)]
  rw [if_pos (by norm_num : (12 : Nat) < 16)]
  rw [show L + 49 - 12 = L + 37 from by omega]
  rw [
    read2_append_low _ _ _ (by simp only [List.length_append, length_le2, length_le4]; omega),
    read2_append_low _ _ _ (by simp only [List.length_append, length_le2, length_le4]; omega),
    read2_append_low _ _ _ (by simp only [List.length_append, length_le2, length_le4]; omega),
    read2_append_low _ _ _ (by simp only [List.length_append, length_le2, length_le4]; omega),
    read2_append_low _ _ _ (by simp only [List.length_append, length_le2, length_le4]; omega),
    read2_append_low _ _ _ (by simp only [List.length_append, length_le2, length_le4]; omega),
    read2_head' (8) (8) _ _
      (by simp only [List.length_append, length_le2, length_le4]; omega) (by norm_num)]

theorem keyOut_fo14 (w1 w2 L : Nat) (A : List Nat) (hA : A.length = L + 13)
    (hL : L + 33 < 65536) : fieldOff (keyOut w1 w2 L A) (L + 33) 14 = 4 := by
  simp only [fieldOff, vtAt, keyOut]
  rw [
    read4_append_low _ _ _ (by simp only [List.length_append, length_le2, length_le4]; omega),
    read4_append_low _ _ _ (by simp only [List.length_append, length_le2, length_le4]; omega),
    read4_append_low _ _ _ (by simp only [List.length_append, length_le2, length_le4]; omega),
    read4_append_low _ _ _ (by simp only [List.length_append, length_le2, length_le4]; omega),
    read4_append_low _ _ _ (by simp only [List.length_append, length_le2, length_le4]; omega),
    read4_append_low _ _ _ (by simp only [List.length_append, length_le2, length_le4]; omega),
    read4_append_low _ _ _ (by simp only [List.length_append, length_le2, length_le4]; omega),
    read4_append_low _ _ _ (by simp only [List.length_append, length_le2, length_le4]; omega),
    read4_head' 16 16 _ _ (by simp only [List.length_append, length_le2, length_le4]; omega)
      (by norm_num)]
  rw [show L + 33 + 16 = L + 49 from by omega]
  rw [read2_head' 16 16 _ _ (by simp only [List.length_append, length_le2, length_le4]; omega)
    (by norm_num)]
  rw [if_pos (by norm_num : (14 : Nat) < 16)]
  rw [show L + 49 - 14 = L + 35 from by omega]
  rw [
    read2_append_low _ _ _ (by simp only [List.length_append, length_le2, length_le4]; omega),
    read2_append_low _ _ _ (by simp only [List.length_append, length_le2, length_le4]; omega),
    read2_append_low _ _ _ (by simp only [List.length_append, length_le2, length_le4]; omega),
    read2_append_low _ _ _ (by simp only [List.length_append, length_le2, length_le4]; omega),
    read2_append_low _ _ _ (by simp only [List.length_append, length_le2, length_le4]; omega),
    read2_append_low _ _ _ (by simp only [List.length_append, length_le2, length_le4]; omega),
    read2_append_low _ _ _ (by simp only [List.length_append, length_le2, length_le4]; omega),
    read2_head' (4) (4) _ _
      (by simp only [List.length_append, length_le2, length_le4]; omega) (by norm_num)]

/-! ## Claim theorems for the codec (C2 – C6) -/

/-- C2.  Order preservation for 64-bit signed integers: for all `int64`
values `a` and `b`, `a < b` holds iff the encoding of `a` (sign bit
flipped, stored big-endian) is lexicographically below the encoding of
`b` under unsigned big-endian byte comparison.  The concrete chain
`encode(INT64_MIN) < encode(-1) < encode(0) < encode(1) <
encode(INT64_MAX)` is the instance of this equivalence at those pairs. -/
theorem c2_int64_order (a b : Int) (ha1 : -2 ^ 63 ≤ a) (ha2 : a < 2 ^ 63)
    (hb1 : -2 ^ 63 ≤ b) (hb2 : b < 2 ^ 63) :
    a < b ↔ lexLtB (serInt64 a) (serInt64 b) = true := by
  have hpow : (256 : Nat) ^ 8 = 2 ^ 64 := by norm_num
  have hba : (a + 2 ^ 63).toNat < 256 ^ 8 := by rw [hpow]; omega
  have hbb : (b + 2 ^ 63).toNat < 256 ^ 8 := by rw [hpow]; omega
  rw [serInt64, serInt64, serInt64_val ha1 ha2, serInt64_val hb1 hb2,
    beLex 8 _ _ hba hbb]
  omega

/-- C2 witness: the equivalence applied at `a = -1`, `b = 0`. -/
theorem c2_int64_order_witness :
    (-1 : Int) < 0 ↔ lexLtB (serInt64 (-1)) (serInt64 0) = true :=
  c2_int64_order (-1) 0 (by norm_num) (by norm_num) (by norm_num) (by norm_num)

/-- C4.  Round-trip for 64-bit signed integers: for every `int64` value
`x`, `Deserialize(Serialize(x)) = x`. -/
theorem c4_int64_roundtrip (a : Int) (h1 : -2 ^ 63 ≤ a) (h2 : a < 2 ^ 63) :
    desInt64 (serInt64 a) = a := by
  have hpat := toPat64_lt a
  have hxor : toPat64 a ^^^ 2 ^ 63 < 2 ^ 64 :=
    Nat.xor_lt_two_pow hpat (by norm_num)
  rw [desInt64, serInt64, fromBE_beBytes hxor, Nat.xor_assoc, Nat.xor_self,
    Nat.xor_zero, toSigned64]
  rcases le_or_lt 0 a with hpos | hneg
  · have hp : toPat64 a = a.toNat := by
      simp only [toPat64]
      rw [Int.emod_eq_of_lt hpos (by omega)]
    rw [hp, if_pos (by omega)]
    omega
  · have hp : toPat64 a = (a + 2 ^ 64).toNat := by
      simp only [toPat64]
      have : a % (2 ^ 64 : Int) = a + 2 ^ 64 := by omega
      rw [this]
    rw [hp, if_neg (by omega)]
    omega

/-- C4 witness: the round trip applied at `x = -2^63` (INT64_MIN). -/
theorem c4_int64_roundtrip_witness : desInt64 (serInt64 (-2 ^ 63)) = -2 ^ 63 :=
  c4_int64_roundtrip (-2 ^ 63) (by norm_num) (by norm_num)

/-- C3 counterexample.  The claim asserts the order equivalence for all
representable doubles including the pair `(-0.0, 0.0)`, which compare
numerically equal.  At that pair the equivalence is false: `-0.0 < 0.0`
is false (they compare equal), yet the encoding of `-0.0`
(`00 00 00 00 00 00 00 00`) is strictly below the encoding of `0.0`
(`80 00 00 00 00 00 00 00`).  `2 ^ 63` is the bit pattern of `-0.0` and
`0` that of `0.0`. -/
theorem c3_counterexample :
    ¬ (dblLtB (2 ^ 63) 0 = true ↔ lexLtB (serDouble (2 ^ 63)) (serDouble 0) = true) := by
  decide

/-- C3 as amended.  Order preservation for IEEE doubles holds for all
non-NaN bit patterns as long as neither operand is `-0.0` (bit pattern
`2 ^ 63`): `a < b` iff the encoding of `a` is lexicographically below the
encoding of `b` under unsigned big-endian byte comparison.  The pair
`(-0.0, 0.0)` is excluded: the code sends `-0.0` through the non-negative
branch, separating the two zeros in encoding space even though they
compare numerically equal. -/
theorem c3_double_order (p q : Nat) (hp : p < 2 ^ 64) (hq : q < 2 ^ 64)
    (hnp : isNaN64 p = false) (hnq : isNaN64 q = false)
    (hzp : p ≠ 2 ^ 63) (hzq : q ≠ 2 ^ 63) :
    dblLtB p q = true ↔ lexLtB (serDouble p) (serDouble q) = true := by
  have hpow : (256 : Nat) ^ 8 = 2 ^ 64 := by norm_num
  have hbp : (if p < 2 ^ 63 then p + 2 ^ 63 else 2 ^ 64 - 1 - p) < 256 ^ 8 := by
    rw [hpow]; split <;> omega
  have hbq : (if q < 2 ^ 63 then q + 2 ^ 63 else 2 ^ 64 - 1 - q) < 256 ^ 8 := by
    rw [hpow]; split <;> omega
  rw [serDouble, serDouble, serDouble_val hp hnp hzp, serDouble_val hq hnq hzq,
    beLex 8 _ _ hbp hbq]
  simp only [dblLtB, hnp, hnq, Bool.not_false, Bool.true_and]
  rcases Nat.lt_or_ge p (2 ^ 63) with hp1 | hp1 <;>
    rcases Nat.lt_or_ge q (2 ^ 63) with hq1 | hq1
  · have sp : sign64 p = false := by simp [sign64]; omega
    have sq : sign64 q = false := by simp [sign64]; omega
    simp only [sp, sq, mag64, decide_eq_true_eq, if_pos hp1, if_pos hq1]
    rw [Nat.mod_eq_of_lt hp1, Nat.mod_eq_of_lt hq1]
    omega
  · have sp : sign64 p = false := by simp [sign64]; omega
    have sq : sign64 q = true := by simp [sign64]; omega
    simp only [sp, sq, if_pos hp1, if_neg (by omega : ¬ q < 2 ^ 63)]
    constructor
    · intro h; cases h
    · intro h; omega
  · have sp : sign64 p = true := by
      simp only [sign64, decide_eq_true_eq]; omega
    have sq : sign64 q = false := by
      simp only [sign64, decide_eq_false_iff_not]; omega
    have hmp : mag64 p ≠ 0 := by simp only [mag64, ne_eq]; omega
    simp only [sp, sq, hmp, if_neg (by omega : ¬ p < 2 ^ 63), if_pos hq1,
      decide_eq_true_eq, decide_eq_false hmp, Bool.false_and, Bool.not_false]
    constructor
    · intro _; omega
    · intro _; rfl
  · have sp : sign64 p = true := by
      simp only [sign64, decide_eq_true_eq]; omega
    have sq : sign64 q = true := by
      simp only [sign64, decide_eq_true_eq]; omega
    simp only [sp, sq, mag64, decide_eq_true_eq,
      if_neg (by omega : ¬ p < 2 ^ 63), if_neg (by omega : ¬ q < 2 ^ 63)]
    omega

/-- C3 witness: the amended equivalence applied at the patterns of `1.0`
(`0x3FF0000000000000`) and `2.0` (`0x4000000000000000`). -/
theorem c3_double_order_witness :
    dblLtB 4607182418800017408 4611686018427387904 = true ↔
      lexLtB (serDouble 4607182418800017408) (serDouble 4611686018427387904) = true :=
  c3_double_order 4607182418800017408 4611686018427387904
    (by norm_num) (by norm_num) (by decide) (by decide) (by norm_num) (by norm_num)

/-- C5.  The claim states every non-NaN double — explicitly including
positive zero — round-trips through the codec.  The code violates this:
`Serialize(0.0)` produces the pattern `2 ^ 63` (`-0.0`), and
`Deserialize` tests `*tmpd < 0`, which is false for `-0.0`, so it
applies the all-ones mask and returns pattern `2 ^ 63 - 1`
(`0x7FFFFFFFFFFFFFFF`), a NaN — not `0.0`.  This theorem evaluates the
code at the failing input `0.0` (bit pattern `0`). -/
theorem c5_zero_roundtrip_bug :
    desDouble (serDouble 0) = 2 ^ 63 - 1 ∧ isNaN64 (2 ^ 63 - 1) = true ∧
      desDouble (serDouble (2 ^ 63)) = 2 ^ 64 - 1 := by
  refine ⟨by decide, by decide, by decide⟩

/-- C6 counterexample.  The claim asserts every NaN bit pattern
round-trips identically.  The quiet NaN `0x7FF8000000000000` does not:
its encoding decodes through the negative branch and comes back as
`0x0007FFFFFFFFFFFF`. -/
theorem c6_counterexample :
    desDouble (serDouble 9221120237041090560) ≠ 9221120237041090560 := by
  decide

/-- C6: amended claim.  Round-trip of NaN bit patterns holds exactly for
the patterns with the sign bit set, plus the single sign-clear pattern
`0x7FFFFFFFFFFFFFFF` (= `2 ^ 63 - 1`): for a sign-set NaN the all-bits
flip gives a pattern with the sign bit clear, and for `2 ^ 63 - 1` it
gives the `-0.0` pattern, so in both cases Deserialize's `*tmpd < 0` test
is false and the same all-ones mask is undone.  Every other sign-clear
NaN pattern flips to a negative non-NaN pattern, Deserialize undoes only
the sign bit, and a different pattern comes back. -/
theorem c6_nan_roundtrip (p : Nat) (hp : p < 2 ^ 64) (hn : isNaN64 p = true) :
    desDouble (serDouble p) = p ↔ (2 ^ 63 ≤ p ∨ p = 2 ^ 63 - 1) := by
  have hge0 : dblGe0B p = false := by simp [dblGe0B, hn]
  have henc : p ^^^ (2 ^ 64 - 1) = 2 ^ 64 - 1 - p := xor_all_ones hp
  have hlt : 2 ^ 64 - 1 - p < 2 ^ 64 := by omega
  simp only [isNaN64, Bool.and_eq_true, decide_eq_true_eq] at hn
  obtain ⟨hexp, hman⟩ := hn
  rcases Nat.lt_or_ge p (2 ^ 63) with hcase | hcase
  · have hlo : 2 ^ 63 - 2 ^ 52 + 1 ≤ p := by omega
    have hsv : sign64 (2 ^ 64 - 1 - p) = true := by
      simp only [sign64, decide_eq_true_eq]
      omega
    have hnv : isNaN64 (2 ^ 64 - 1 - p) = false := by
      have h1 : (2 ^ 64 - 1 - p) / 2 ^ 52 % 2 ^ 11 = 0 := by omega
      simp only [isNaN64, Bool.and_eq_false_iff, decide_eq_false_iff_not]
      left
      omega
    have hmag : mag64 (2 ^ 64 - 1 - p) = 2 ^ 63 - 1 - p := by
      simp only [mag64]
      omega
    rcases eq_or_ne p (2 ^ 63 - 1) with hpe | hpe
    · subst hpe
      refine iff_of_true ?_ (Or.inr rfl)
      have hlt0 : dblLt0B (2 ^ 64 - 1 - (2 ^ 63 - 1)) = false := by
        rw [dblLt0B, hmag]
        simp
      rw [serDouble, hge0, cond_false, henc, desDouble]
      simp only [fromBE_beBytes hlt, hlt0, cond_false, xor_all_ones hlt]
      omega
    · refine iff_of_false ?_ (by omega)
      have hlt0 : dblLt0B (2 ^ 64 - 1 - p) = true := by
        rw [dblLt0B, hnv, hsv, hmag]
        simp only [Bool.not_false, Bool.true_and, decide_eq_true_eq, ne_eq]
        omega
      rw [serDouble, hge0, cond_false, henc, desDouble]
      simp only [fromBE_beBytes hlt, hlt0, cond_true]
      have hx : (2 ^ 64 - 1 - p) ^^^ 2 ^ 63 = 2 ^ 63 - 1 - p := by
        have h2 := @xor_two_pow_of_ge (2 ^ 64 - 1 - p) 63 (by omega) (by omega)
        omega
      rw [hx]
      omega
  · refine iff_of_true ?_ (Or.inl hcase)
    have hsg : sign64 (2 ^ 64 - 1 - p) = false := by
      simp only [sign64, decide_eq_false_iff_not]
      omega
    have hlt0 : dblLt0B (2 ^ 64 - 1 - p) = false := by
      rw [dblLt0B, hsg, Bool.and_false, Bool.false_and]
    rw [serDouble, hge0, cond_false, henc, desDouble]
    simp only [fromBE_beBytes hlt, hlt0, cond_false, xor_all_ones hlt]
    omega

/-- C6 witness: the characterization applied at the negative quiet NaN
`0xFFF8000000000000` (sign bit set, so the round trip holds). -/
theorem c6_nan_roundtrip_witness :
    (desDouble (serDouble 18444492273895866368) = 18444492273895866368 ↔
      (2 ^ 63 ≤ 18444492273895866368 ∨ 18444492273895866368 = 2 ^ 63 - 1)) :=
  c6_nan_roundtrip 18444492273895866368 (by norm_num) (by decide)

/-! ## Claim theorems for the builder (C1, C7 – C10) -/

/-- C7 counterexample.  The claim states that for every string added as a
key field the metadata pair (length and relative offset) is written into
the value buffer at the field's slot.  For the empty string it is not:
`AddElement(field, len, 0)` with `len = 0` equals the default and is
omitted, so only the raw offset word is pushed (4 bytes, no length word)
and the field slot is never tracked — while the relocation record is
still appended. -/
theorem c7_counterexample :
    ((KVB.startTable initKVB).1.addKeyString 4 []).vb.buf = [1, 0, 0, 0] ∧
      ((KVB.startTable initKVB).1.addKeyString 4 []).vb.tracked = [] ∧
      ((KVB.startTable initKVB).1.addKeyString 4 []).relocs = [4] := by
  decide

/-- C7 as amended.  For every nonempty string added as a key field (on a
value buffer in its natural 4-byte-aligned state): the payload bytes and
their NUL terminator go to the key buffer; the value buffer receives the
metadata pair — the payload's key-buffer end-relative offset word, then
the length word — with the length tracked as field `f` of the value
table; and exactly one relocation record is appended holding the value
buffer's end-relative position of the raw metadata offset word. -/
theorem c7_key_string_routing (f : Nat) (s : List Nat) (st : KVB)
    (hs : s ≠ []) (hal : st.vb.buf.length % 4 = 0) :
    (st.addKeyString f s).kb.buf = s ++ 0 :: st.kb.buf ∧
      (st.addKeyString f s).vb.buf =
        le4 s.length ++ le4 (st.kb.buf.length + s.length + 1) ++ st.vb.buf ∧
      (st.addKeyString f s).vb.tracked =
        (f, st.vb.buf.length + 8) :: st.vb.tracked ∧
      (st.addKeyString f s).relocs = st.relocs ++ [st.vb.buf.length + 4] := by
  have hlen : s.length ≠ 0 := by
    intro h
    exact hs (List.eq_nil_of_length_eq_zero h)
  rw [addKeyString_eq f s st hlen hal]
  exact ⟨by simp, rfl, rfl, rfl⟩

/-- C7 witness: the routing applied to the string `"A"` (`[65]`) as field
4 on a freshly opened record. -/
theorem c7_key_string_routing_witness :
    ([65] : List Nat) ≠ [] ∧
      (KVB.startTable initKVB).1.vb.buf.length % 4 = 0 ∧
      (((KVB.startTable initKVB).1.addKeyString 4 [65]).kb.buf =
          [65] ++ 0 :: (KVB.startTable initKVB).1.kb.buf ∧
        ((KVB.startTable initKVB).1.addKeyString 4 [65]).vb.buf =
          le4 1 ++
            le4 ((KVB.startTable initKVB).1.kb.buf.length + 1 + 1) ++
            (KVB.startTable initKVB).1.vb.buf ∧
        ((KVB.startTable initKVB).1.addKeyString 4 [65]).vb.tracked =
          (4, (KVB.startTable initKVB).1.vb.buf.length + 8) ::
            (KVB.startTable initKVB).1.vb.tracked ∧
        ((KVB.startTable initKVB).1.addKeyString 4 [65]).relocs =
          (KVB.startTable initKVB).1.relocs ++
            [(KVB.startTable initKVB).1.vb.buf.length + 4]) :=
  ⟨by decide, by decide,
    c7_key_string_routing 4 [65] (KVB.startTable initKVB).1 (by decide) (by decide)⟩

/-- C8.  The claim states the relocation list is empty after every
`EndTable` call.  The source never clears `relocs_` — not in `EndTable`
and not in `Clear` — so after finishing a record containing one key
string the list still holds that record's relocation entry.  This
evaluates the code at the failing input: a single record with three key
scalars, one key string and two value scalars. -/
theorem c8_relocs_not_cleared :
    ((buildRecord 11 22 33 [65, 66] 55 66 initKVB).endTable 6).1.relocs = [4] := by
  decide

/-- C9.  The claim states `Clear()` followed by rebuilding the same
record is byte-identical to a fresh instance.  `Clear()` resets the two
builders but not `relocs_`, so the second `EndTable` processes the stale
relocation record again; the double patch restores the metadata offset
word to its unrelocated value, and the key buffers differ. -/
theorem c9_clear_not_idempotent :
    ((buildRecord 11 22 33 [65, 66] 55 66
        (((buildRecord 11 22 33 [65, 66] 55 66 initKVB).endTable
          6).1.clear)).endTable 6).1.kb.buf ≠
      ((buildRecord 11 22 33 [65, 66] 55 66 initKVB).endTable 6).1.kb.buf := by
  decide

/-- C10.  `AddKeyOffset(field, off)` overwrites `off` with 0 before
forwarding, so it is identical to `AddOffset(field, 0)` and ignores its
offset argument entirely. -/
theorem c10_addkeyoffset_ignores_offset (f off off' : Nat) (st : KVB) :
    st.addKeyOffset f off = st.addOffset f 0 ∧
      st.addKeyOffset f off = st.addKeyOffset f off' :=
  ⟨rfl, rfl⟩

/-- C1 counterexample.  The claim quantifies over records with `N` key
scalars and `M` value scalars, but `EndTable` hardcodes
`num_value_fields = 3`.  For a record with `M = 3` value scalars beside
the string metadata (third scalar's original value 7, at unified slot
byte offset `2 * (3 + 3 + 2) = 16` per the claim's numbering, built with
unified field count 7), the relocation loop never registers the third
value scalar, and the decoder returns the default 0 instead of 7. -/
theorem c1_counterexample :
    decodeScalar ((buildRecord3V.endTable 7).1).kb.buf
      ((buildRecord3V.endTable 7)).2 16 ≠ 7 := by
  decide

set_option maxHeartbeats 2000000 in
/-- C1: amended claim. For a record built with the hardcoded field layout
that `EndTable` assumes (3 key fields, 1 key string slot, 2 value fields,
all present and nonzero, key string nonempty, total key size under the
16-bit vtable limit), the final single buffer decodes every field back to
the value that was added: the three key scalars at vtable slots 4, 6, 8,
the two value scalars at slots 12, 14, and the key string at slot 10. -/
theorem c1_split_integrity (k1 k2 k3 w1 w2 : Nat) (s : List Nat)
    (hk1 : k1 ≠ 0) (hk2 : k2 ≠ 0) (hk3 : k3 ≠ 0) (hw1 : w1 ≠ 0) (hw2 : w2 ≠ 0)
    (hk1b : k1 < 4294967296) (hk2b : k2 < 4294967296) (hk3b : k3 < 4294967296)
    (hw1b : w1 < 4294967296) (hw2b : w2 < 4294967296)
    (hs : s ≠ []) (hlen : s.length + 33 < 65536) :
    decodeScalar ((buildRecord k1 k2 k3 s w1 w2 initKVB).endTable 6).1.kb.buf
        ((buildRecord k1 k2 k3 s w1 w2 initKVB).endTable 6).2 4 = k1 ∧
      decodeScalar ((buildRecord k1 k2 k3 s w1 w2 initKVB).endTable 6).1.kb.buf
        ((buildRecord k1 k2 k3 s w1 w2 initKVB).endTable 6).2 6 = k2 ∧
      decodeScalar ((buildRecord k1 k2 k3 s w1 w2 initKVB).endTable 6).1.kb.buf
        ((buildRecord k1 k2 k3 s w1 w2 initKVB).endTable 6).2 8 = k3 ∧
      decodeScalar ((buildRecord k1 k2 k3 s w1 w2 initKVB).endTable 6).1.kb.buf
        ((buildRecord k1 k2 k3 s w1 w2 initKVB).endTable 6).2 12 = w1 ∧
      decodeScalar ((buildRecord k1 k2 k3 s w1 w2 initKVB).endTable 6).1.kb.buf
        ((buildRecord k1 k2 k3 s w1 w2 initKVB).endTable 6).2 14 = w2 ∧
      decodeString ((buildRecord k1 k2 k3 s w1 w2 initKVB).endTable 6).1.kb.buf
        ((buildRecord k1 k2 k3 s w1 w2 initKVB).endTable 6).2 10 = s := by
  have hsne : s.length ≠ 0 := by
    intro h
    exact hs (List.eq_nil_of_length_eq_zero h)
  have hb := buildRecord_eq k1 k2 k3 w1 w2 s hk1 hk2 hk3 hw1 hw2 hsne
  have hAlen : ((s ++ [0]) ++ le4 k3 ++ le4 k2 ++ le4 k1).length = s.length + 13 := by
    simp only [List.length_append, length_le4, List.length_cons, List.length_nil]
    all_goals omega
  have he := kvEnd_eq w1 w2 s.length ((s ++ [0]) ++ le4 k3 ++ le4 k2 ++ le4 k1)
    hAlen hlen
  rw [hb, he]
  dsimp only
  refine ⟨?_, ?_, ?_, ?_, ?_, ?_⟩
  · simp only [decodeScalar]
    rw [keyOut_fo4 _ _ _ _ hAlen hlen]
    rw [if_neg (by omega : ¬ s.length + 29 = 0)]
    rw [show s.length + 33 - (s.length + 29) = 4 from by omega]
    simp only [keyOut]
    rw [
    read4_append_low _ _ _ (by simp only [List.length_append, length_le2, length_le4, List.length_cons, List.length_nil]; all_goals omega),
    read4_append_low _ _ _ (by simp only [List.length_append, length_le2, length_le4, List.length_cons, List.length_nil]; all_goals omega),
    read4_append_low _ _ _ (by simp only [List.length_append, length_le2, length_le4, List.length_cons, List.length_nil]; all_goals omega),
    read4_append_low _ _ _ (by simp only [List.length_append, length_le2, length_le4, List.length_cons, List.length_nil]; all_goals omega),
    read4_append_low _ _ _ (by simp only [List.length_append, length_le2, length_le4, List.length_cons, List.length_nil]; all_goals omega),
    read4_append_low _ _ _ (by simp only [List.length_append, length_le2, length_le4, List.length_cons, List.length_nil]; all_goals omega),
    read4_append_low _ _ _ (by simp only [List.length_append, length_le2, length_le4, List.length_cons, List.length_nil]; all_goals omega),
    read4_append_low _ _ _ (by simp only [List.length_append, length_le2, length_le4, List.length_cons, List.length_nil]; all_goals omega),
    read4_append_low _ _ _ (by simp only [List.length_append, length_le2, length_le4, List.length_cons, List.length_nil]; all_goals omega),
    read4_append_low _ _ _ (by simp only [List.length_append, length_le2, length_le4, List.length_cons, List.length_nil]; all_goals omega),
    read4_append_low _ _ _ (by simp only [List.length_append, length_le2, length_le4, List.length_cons, List.length_nil]; all_goals omega),
    read4_append_low _ _ _ (by simp only [List.length_append, length_le2, length_le4, List.length_cons, List.length_nil]; all_goals omega),
    read4_append_low _ _ _ (by simp only [List.length_append, length_le2, length_le4, List.length_cons, List.length_nil]; all_goals omega),
    read4_append_low _ _ _ (by simp only [List.length_append, length_le2, length_le4, List.length_cons, List.length_nil]; all_goals omega),
    read4_le4_eq k1 k1 _ (by simp only [List.length_append, length_le2, length_le4, List.length_cons, List.length_nil]; all_goals omega) (by omega)]
  · simp only [decodeScalar]
    rw [keyOut_fo6 _ _ _ _ hAlen hlen]
    rw [if_neg (by omega : ¬ s.length + 25 = 0)]
    rw [show s.length + 33 - (s.length + 25) = 8 from by omega]
    simp only [keyOut]
    rw [
    read4_append_low _ _ _ (by simp only [List.length_append, length_le2, length_le4, List.length_cons, List.length_nil]; all_goals omega),
    read4_append_low _ _ _ (by simp only [List.length_append, length_le2, length_le4, List.length_cons, List.length_nil]; all_goals omega),
    read4_append_low _ _ _ (by simp only [List.length_append, length_le2, length_le4, List.length_cons, List.length_nil]; all_goals omega),
    read4_append_low _ _ _ (by simp only [List.length_append, length_le2, length_le4, List.length_cons, List.length_nil]; all_goals omega),
    read4_append_low _ _ _ (by simp only [List.length_append, length_le2, length_le4, List.length_cons, List.length_nil]; all_goals omega),
    read4_append_low _ _ _ (by simp only [List.length_append, length_le2, length_le4, List.length_cons, List.length_nil]; all_goals omega),
    read4_append_low _ _ _ (by simp only [List.length_append, length_le2, length_le4, List.length_cons, List.length_nil]; all_goals omega),
    read4_append_low _ _ _ (by simp only [List.length_append, length_le2, length_le4, List.length_cons, List.length_nil]; all_goals omega),
    read4_append_low _ _ _ (by simp only [List.length_append, length_le2, length_le4, List.length_cons, List.length_nil]; all_goals omega),
    read4_append_low _ _ _ (by simp only [List.length_append, length_le2, length_le4, List.length_cons, List.length_nil]; all_goals omega),
    read4_append_low _ _ _ (by simp only [List.length_append, length_le2, length_le4, List.length_cons, List.length_nil]; all_goals omega),
    read4_append_low _ _ _ (by simp only [List.length_append, length_le2, length_le4, List.length_cons, List.length_nil]; all_goals omega),
    read4_append_low _ _ _ (by simp only [List.length_append, length_le2, length_le4, List.length_cons, List.length_nil]; all_goals omega),
    read4_append_high _ _ _ (by simp only [List.length_append, length_le2, length_le4, List.length_cons, List.length_nil]; all_goals omega) (by simp only [List.length_append, length_le2, length_le4, List.length_cons, List.length_nil]; all_goals omega),
    read4_append_low _ _ _ (by simp only [List.length_append, length_le2, length_le4, List.length_cons, List.length_nil]; all_goals omega),
    read4_le4_eq k2 k2 _ (by simp only [List.length_append, length_le2, length_le4, List.length_cons, List.length_nil]; all_goals omega) (by omega)]
  · simp only [decodeScalar]
    rw [keyOut_fo8 _ _ _ _ hAlen hlen]
    rw [if_neg (by omega : ¬ s.length + 21 = 0)]
    rw [show s.length + 33 - (s.length + 21) = 12 from by omega]
    simp only [keyOut]
    rw [
    read4_append_low _ _ _ (by simp only [List.length_append, length_le2, length_le4, List.length_cons, List.length_nil]; all_goals omega),
    read4_append_low _ _ _ (by simp only [List.length_append, length_le2, length_le4, List.length_cons, List.length_nil]; all_goals omega),
    read4_append_low _ _ _ (by simp only [List.length_append, length_le2, length_le4, List.length_cons, List.length_nil]; all_goals omega),
    read4_append_low _ _ _ (by simp only [List.length_append, length_le2, length_le4, List.length_cons, List.length_nil]; all_goals omega),
    read4_append_low _ _ _ (by simp only [List.length_append, length_le2, length_le4, List.length_cons, List.length_nil]; all_goals omega),
    read4_append_low _ _ _ (by simp only [List.length_append, length_le2, length_le4, List.length_cons, List.length_nil]; all_goals omega),
    read4_append_low _ _ _ (by simp only [List.length_append, length_le2, length_le4, List.length_cons, List.length_nil]; all_goals omega),
    read4_append_low _ _ _ (by simp only [List.length_append, length_le2, length_le4, List.length_cons, List.length_nil]; all_goals omega),
    read4_append_low _ _ _ (by simp only [List.length_append, length_le2, length_le4, List.length_cons, List.length_nil]; all_goals omega),
    read4_append_low _ _ _ (by simp only [List.length_append, length_le2, length_le4, List.length_cons, List.length_nil]; all_goals omega),
    read4_append_low _ _ _ (by simp only [List.length_append, length_le2, length_le4, List.length_cons, List.length_nil]; all_goals omega),
    read4_append_low _ _ _ (by simp only [List.length_append, length_le2, length_le4, List.length_cons, List.length_nil]; all_goals omega),
    read4_append_low _ _ _ (by simp only [List.length_append, length_le2, length_le4, List.length_cons, List.length_nil]; all_goals omega),
    read4_append_high _ _ _ (by simp only [List.length_append, length_le2, length_le4, List.length_cons, List.length_nil]; all_goals omega) (by simp only [List.length_append, length_le2, length_le4, List.length_cons, List.length_nil]; all_goals omega),
    read4_append_high _ _ _ (by simp only [List.length_append, length_le2, length_le4, List.length_cons, List.length_nil]; all_goals omega) (by simp only [List.length_append, length_le2, length_le4, List.length_cons, List.length_nil]; all_goals omega),
    read4_append_low _ _ _ (by simp only [List.length_append, length_le2, length_le4, List.length_cons, List.length_nil]; all_goals omega),
    read4_le4_eq k3 k3 _ (by simp only [List.length_append, length_le2, length_le4, List.length_cons, List.length_nil]; all_goals omega) (by omega)]
  · simp only [decodeScalar]
    rw [keyOut_fo12 _ _ _ _ hAlen hlen]
    rw [if_neg (by omega : ¬ (8 : Nat) = 0)]
    rw [show s.length + 33 - 8 = s.length + 25 from by omega]
    simp only [keyOut]
    rw [
    read4_append_low _ _ _ (by simp only [List.length_append, length_le2, length_le4, List.length_cons, List.length_nil]; all_goals omega),
    read4_append_low _ _ _ (by simp only [List.length_append, length_le2, length_le4, List.length_cons, List.length_nil]; all_goals omega),
    read4_append_low _ _ _ (by simp only [List.length_append, length_le2, length_le4, List.length_cons, List.length_nil]; all_goals omega),
    read4_append_low _ _ _ (by simp only [List.length_append, length_le2, length_le4, List.length_cons, List.length_nil]; all_goals omega),
    read4_append_low _ _ _ (by simp only [List.length_append, length_le2, length_le4, List.length_cons, List.length_nil]; all_goals omega),
    read4_append_low _ _ _ (by simp only [List.length_append, length_le2, length_le4, List.length_cons, List.length_nil]; all_goals omega),
    read4_append_low _ _ _ (by simp only [List.length_append, length_le2, length_le4, List.length_cons, List.length_nil]; all_goals omega),
    read4_append_low _ _ _ (by simp only [List.length_append, length_le2, length_le4, List.length_cons, List.length_nil]; all_goals omega),
    read4_append_low _ _ _ (by simp only [List.length_append, length_le2, length_le4, List.length_cons, List.length_nil]; all_goals omega),
    read4_append_low _ _ _ (by simp only [List.length_append, length_le2, length_le4, List.length_cons, List.length_nil]; all_goals omega),
    read4_head' w1 w1 _ _ (by simp only [List.length_append, length_le2, length_le4, List.length_cons, List.length_nil]; all_goals omega) (by omega)]
  · simp only [decodeScalar]
    rw [keyOut_fo14 _ _ _ _ hAlen hlen]
    rw [if_neg (by omega : ¬ (4 : Nat) = 0)]
    rw [show s.length + 33 - 4 = s.length + 29 from by omega]
    simp only [keyOut]
    rw [
    read4_append_low _ _ _ (by simp only [List.length_append, length_le2, length_le4, List.length_cons, List.length_nil]; all_goals omega),
    read4_append_low _ _ _ (by simp only [List.length_append, length_le2, length_le4, List.length_cons, List.length_nil]; all_goals omega),
    read4_append_low _ _ _ (by simp only [List.length_append, length_le2, length_le4, List.length_cons, List.length_nil]; all_goals omega),
    read4_append_low _ _ _ (by simp only [List.length_append, length_le2, length_le4, List.length_cons, List.length_nil]; all_goals omega),
    read4_append_low _ _ _ (by simp only [List.length_append, length_le2, length_le4, List.length_cons, List.length_nil]; all_goals omega),
    read4_append_low _ _ _ (by simp only [List.length_append, length_le2, length_le4, List.length_cons, List.length_nil]; all_goals omega),
    read4_append_low _ _ _ (by simp only [List.length_append, length_le2, length_le4, List.length_cons, List.length_nil]; all_goals omega),
    read4_append_low _ _ _ (by simp only [List.length_append, length_le2, length_le4, List.length_cons, List.length_nil]; all_goals omega),
    read4_append_low _ _ _ (by simp only [List.length_append, length_le2, length_le4, List.length_cons, List.length_nil]; all_goals omega),
    read4_head' w2 w2 _ _ (by simp only [List.length_append, length_le2, length_le4, List.length_cons, List.length_nil]; all_goals omega) (by omega)]
  · simp only [decodeString]
    rw [keyOut_fo10 _ _ _ _ hAlen hlen]
    rw [if_neg (by omega : ¬ (12 : Nat) = 0)]
    rw [show s.length + 33 - 12 = s.length + 21 from by omega]
    simp only [keyOut]
    rw [
    read4_append_low _ _ (s.length + 21) (by simp only [List.length_append, length_le2, length_le4, List.length_cons, List.length_nil]; all_goals omega),
    read4_append_low _ _ (s.length + 21) (by simp only [List.length_append, length_le2, length_le4, List.length_cons, List.length_nil]; all_goals omega),
    read4_append_low _ _ (s.length + 21) (by simp only [List.length_append, length_le2, length_le4, List.length_cons, List.length_nil]; all_goals omega),
    read4_append_low _ _ (s.length + 21) (by simp only [List.length_append, length_le2, length_le4, List.length_cons, List.length_nil]; all_goals omega),
    read4_append_low _ _ (s.length + 21) (by simp only [List.length_append, length_le2, length_le4, List.length_cons, List.length_nil]; all_goals omega),
    read4_append_low _ _ (s.length + 21) (by simp only [List.length_append, length_le2, length_le4, List.length_cons, List.length_nil]; all_goals omega),
    read4_append_low _ _ (s.length + 21) (by simp only [List.length_append, length_le2, length_le4, List.length_cons, List.length_nil]; all_goals omega),
    read4_append_low _ _ (s.length + 21) (by simp only [List.length_append, length_le2, length_le4, List.length_cons, List.length_nil]; all_goals omega),
    read4_append_low _ _ (s.length + 21) (by simp only [List.length_append, length_le2, length_le4, List.length_cons, List.length_nil]; all_goals omega),
    read4_append_low _ _ (s.length + 21) (by simp only [List.length_append, length_le2, length_le4, List.length_cons, List.length_nil]; all_goals omega),
    read4_append_low _ _ (s.length + 21) (by simp only [List.length_append, length_le2, length_le4, List.length_cons, List.length_nil]; all_goals omega),
    read4_head' s.length s.length (s.length + 21) _ (by simp only [List.length_append, length_le2, length_le4, List.length_cons, List.length_nil]; all_goals omega) (by omega)]
    rw [show s.length + 21 - 4 = s.length + 17 from by omega]
    rw [
    read4_append_low _ _ (s.length + 17) (by simp only [List.length_append, length_le2, length_le4, List.length_cons, List.length_nil]; all_goals omega),
    read4_append_low _ _ (s.length + 17) (by simp only [List.length_append, length_le2, length_le4, List.length_cons, List.length_nil]; all_goals omega),
    read4_append_low _ _ (s.length + 17) (by simp only [List.length_append, length_le2, length_le4, List.length_cons, List.length_nil]; all_goals omega),
    read4_append_low _ _ (s.length + 17) (by simp only [List.length_append, length_le2, length_le4, List.length_cons, List.length_nil]; all_goals omega),
    read4_append_low _ _ (s.length + 17) (by simp only [List.length_append, length_le2, length_le4, List.length_cons, List.length_nil]; all_goals omega),
    read4_append_low _ _ (s.length + 17) (by simp only [List.length_append, length_le2, length_le4, List.length_cons, List.length_nil]; all_goals omega),
    read4_append_low _ _ (s.length + 17) (by simp only [List.length_append, length_le2, length_le4, List.length_cons, List.length_nil]; all_goals omega),
    read4_append_low _ _ (s.length + 17) (by simp only [List.length_append, length_le2, length_le4, List.length_cons, List.length_nil]; all_goals omega),
    read4_append_low _ _ (s.length + 17) (by simp only [List.length_append, length_le2, length_le4, List.length_cons, List.length_nil]; all_goals omega),
    read4_append_low _ _ (s.length + 17) (by simp only [List.length_append, length_le2, length_le4, List.length_cons, List.length_nil]; all_goals omega),
    read4_append_low _ _ (s.length + 17) (by simp only [List.length_append, length_le2, length_le4, List.length_cons, List.length_nil]; all_goals omega),
    read4_append_low _ _ (s.length + 17) (by simp only [List.length_append, length_le2, length_le4, List.length_cons, List.length_nil]; all_goals omega),
    read4_head' 4 4 (s.length + 17) _ (by simp only [List.length_append, length_le2, length_le4, List.length_cons, List.length_nil]; all_goals omega) (by norm_num)]
    rw [show s.length + 17 - 4 = s.length + 13 from by omega]
    rw [
    readBytes_append_low _ _ _ _ (by simp only [List.length_append, length_le2, length_le4, List.length_cons, List.length_nil]; all_goals omega),
    readBytes_append_low _ _ _ _ (by simp only [List.length_append, length_le2, length_le4, List.length_cons, List.length_nil]; all_goals omega),
    readBytes_append_low _ _ _ _ (by simp only [List.length_append, length_le2, length_le4, List.length_cons, List.length_nil]; all_goals omega),
    readBytes_append_low _ _ _ _ (by simp only [List.length_append, length_le2, length_le4, List.length_cons, List.length_nil]; all_goals omega),
    readBytes_append_low _ _ _ _ (by simp only [List.length_append, length_le2, length_le4, List.length_cons, List.length_nil]; all_goals omega),
    readBytes_append_low _ _ _ _ (by simp only [List.length_append, length_le2, length_le4, List.length_cons, List.length_nil]; all_goals omega),
    readBytes_append_low _ _ _ _ (by simp only [List.length_append, length_le2, length_le4, List.length_cons, List.length_nil]; all_goals omega),
    readBytes_append_low _ _ _ _ (by simp only [List.length_append, length_le2, length_le4, List.length_cons, List.length_nil]; all_goals omega),
    readBytes_append_low _ _ _ _ (by simp only [List.length_append, length_le2, length_le4, List.length_cons, List.length_nil]; all_goals omega),
    readBytes_append_low _ _ _ _ (by simp only [List.length_append, length_le2, length_le4, List.length_cons, List.length_nil]; all_goals omega),
    readBytes_append_low _ _ _ _ (by simp only [List.length_append, length_le2, length_le4, List.length_cons, List.length_nil]; all_goals omega),
    readBytes_append_low _ _ _ _ (by simp only [List.length_append, length_le2, length_le4, List.length_cons, List.length_nil]; all_goals omega),
    readBytes_append_low _ _ _ _ (by simp only [List.length_append, length_le2, length_le4, List.length_cons, List.length_nil]; all_goals omega),
    readBytes_append_high _ _ _ _ (by simp only [List.length_append, length_le2, length_le4, List.length_cons, List.length_nil]; all_goals omega) (by simp only [List.length_append, length_le2, length_le4, List.length_cons, List.length_nil]; all_goals omega),
    readBytes_append_high _ _ _ _ (by simp only [List.length_append, length_le2, length_le4, List.length_cons, List.length_nil]; all_goals omega) (by simp only [List.length_append, length_le2, length_le4, List.length_cons, List.length_nil]; all_goals omega),
    readBytes_append_high _ _ _ _ (by simp only [List.length_append, length_le2, length_le4, List.length_cons, List.length_nil]; all_goals omega) (by simp only [List.length_append, length_le2, length_le4, List.length_cons, List.length_nil]; all_goals omega),
    readBytes_nul s _ _ (by simp only [List.length_append, length_le2, length_le4, List.length_cons, List.length_nil]; all_goals omega) rfl]

/-- Witness for C1 at a concrete record. -/
theorem c1_split_integrity_witness :
    decodeScalar ((buildRecord 1 2 3 [65, 66] 5 7 initKVB).endTable 6).1.kb.buf
        ((buildRecord 1 2 3 [65, 66] 5 7 initKVB).endTable 6).2 4 = 1 ∧
      decodeScalar ((buildRecord 1 2 3 [65, 66] 5 7 initKVB).endTable 6).1.kb.buf
        ((buildRecord 1 2 3 [65, 66] 5 7 initKVB).endTable 6).2 6 = 2 ∧
      decodeScalar ((buildRecord 1 2 3 [65, 66] 5 7 initKVB).endTable 6).1.kb.buf
        ((buildRecord 1 2 3 [65, 66] 5 7 initKVB).endTable 6).2 8 = 3 ∧
      decodeScalar ((buildRecord 1 2 3 [65, 66] 5 7 initKVB).endTable 6).1.kb.buf
        ((buildRecord 1 2 3 [65, 66] 5 7 initKVB).endTable 6).2 12 = 5 ∧
      decodeScalar ((buildRecord 1 2 3 [65, 66] 5 7 initKVB).endTable 6).1.kb.buf
        ((buildRecord 1 2 3 [65, 66] 5 7 initKVB).endTable 6).2 14 = 7 ∧
      decodeString ((buildRecord 1 2 3 [65, 66] 5 7 initKVB).endTable 6).1.kb.buf
        ((buildRecord 1 2 3 [65, 66] 5 7 initKVB).endTable 6).2 10 = [65, 66] :=
  c1_split_integrity 1 2 3 5 7 [65, 66]
    (by decide) (by decide) (by decide) (by decide) (by decide)
    (by decide) (by decide) (by decide) (by decide) (by decide)
    (by decide) (by decide)

end KVSpec

